import Mathlib

/-!
# Verification of the MEV_Monitoring CSV-analysis scripts

Shallow embedding of the two Python scripts `analyze_csv.py` (the strict,
fail-fast variant) and `analyze_csv_new.py` (the defensive, skip-and-continue
variant).  Each script makes a single pass over the rows of a CSV file,
accumulating aggregates, and then derives report statistics.

Modelling conventions:
* a raw CSV row is a `List String` (the fields produced by `csv.reader`);
* Python `float` values are modelled as `ℚ` (all arithmetic in the scripts is
  exact on the decimal inputs that occur; no rounding-sensitive claim is made);
* fallible Python conversions (`float(..)`, `int(..)`) become `Option`-valued
  parsers, and the fail-fast script and the report phase run in
  `Except PyErr`;
* Python's `sorted` (a stable sort) is modelled with `List.insertionSort`,
  which is also stable; a stable sort by a total preorder is extensionally
  unique, so this is the same function.
-/

namespace MEV

/-- A raw CSV row: the list of its fields as produced by `csv.reader`. -/
abbrev Row := List String

/-- Python exceptions that the scripts can raise. -/
inductive PyErr where
  | valueError
  | zeroDivision
  | stopIteration
  | indexError
deriving DecidableEq, Repr

/-- Python's default `str.strip()` whitespace characters. -/
def isPySpace (c : Char) : Bool :=
  c = ' ' ∨ c = '\t' ∨ c = '\n' ∨ c = '\r' ∨ c = '\x0b' ∨ c = '\x0c'

/-- Drop leading and trailing whitespace from a character list. -/
def stripChars (cs : List Char) : List Char :=
  ((cs.dropWhile isPySpace).reverse.dropWhile isPySpace).reverse

/-- Decidable equality of `Except` results (needed to evaluate the scripts
on concrete inputs). -/
instance {ε α : Type} [DecidableEq ε] [DecidableEq α] :
    DecidableEq (Except ε α) := fun a b =>
  match a, b with
  | .error e, .error e' =>
    if h : e = e' then .isTrue (by rw [h]) else .isFalse (by simp [h])
  | .ok v, .ok v' =>
    if h : v = v' then .isTrue (by rw [h]) else .isFalse (by simp [h])
  | .error _, .ok _ => .isFalse (by simp)
  | .ok _, .error _ => .isFalse (by simp)

/-- Models Python `str.strip()`: drop leading and trailing whitespace. -/
def pyStrip (s : String) : String := String.mk (stripChars s.toList)

/-- Models `t.replace('Z', '+00:00')`: every occurrence of the one-character
substring `'Z'` is replaced by `'+00:00'`. -/
def replaceZ (s : String) : String :=
  String.mk (s.toList.foldr
    (fun c acc => if c = 'Z' then '+' :: '0' :: '0' :: ':' :: '0' :: '0' :: acc
      else c :: acc) [])

/-- Value of a list of decimal digit characters. -/
def digitsVal (cs : List Char) : Nat :=
  cs.foldl (fun n c => 10 * n + (c.toNat - 48)) 0

/-- Splits an optional leading sign off a character list; returns
(`true` for a minus sign, remaining characters). -/
def splitSign : List Char → Bool × List Char
  | '-' :: rest => (true, rest)
  | '+' :: rest => (false, rest)
  | cs => (false, cs)

/-- Models Python `float(s)` on decimal literals: optional surrounding
whitespace, optional sign, digits with at most one decimal point and at least
one digit overall.  Returns `none` where `float` raises `ValueError`.
(Exponent, `inf` and `nan` forms, which do not occur in this data set, are
not modelled.) -/
def parseFloat? (s : String) : Option ℚ :=
  let (neg, cs) := splitSign (stripChars s.toList)
  let intPart := cs.takeWhile (fun c => c ≠ '.')
  let rest := cs.dropWhile (fun c => c ≠ '.')
  if intPart.all Char.isDigit then
    match rest with
    | [] =>
      if intPart ≠ [] then
        let v : ℚ := (digitsVal intPart : ℚ)
        some (if neg then -v else v)
      else none
    | '.' :: frac =>
      if frac.all Char.isDigit ∧ (intPart ≠ [] ∨ frac ≠ []) then
        let v : ℚ := (digitsVal intPart : ℚ) +
          (digitsVal frac : ℚ) / ((10 : ℚ) ^ frac.length)
        some (if neg then -v else v)
      else none
    | _ => none
  else none

/-- Models Python `int(s)`: optional surrounding whitespace, optional sign,
a nonempty digit string.  Returns `none` where `int` raises `ValueError`. -/
def parseInt? (s : String) : Option Int :=
  let (neg, cs) := splitSign (stripChars s.toList)
  if cs ≠ [] ∧ cs.all Char.isDigit then
    some (if neg then -(digitsVal cs : Int) else (digitsVal cs : Int))
  else none

/-- Field `i` of a row (rows handed to the parsers always have ≥ 29 fields,
so the default is never read on the paths the scripts exercise). -/
def getField (row : Row) (i : Nat) : String := row.getD i ""

/-! ## A model of `datetime.fromisoformat`

The defensive script parses the first and last record timestamps with
`datetime.fromisoformat(t.replace('Z', '+00:00'))` and subtracts the two
datetimes.  We model a parsed datetime as a pair of the timestamp in seconds
(a `ℚ`, proleptic Gregorian, microsecond fractions included) and an
"aware" flag (whether an explicit UTC offset was present); Python refuses to
subtract a naive datetime from an aware one, and the script's bare `except`
turns that into `hours = 0` just like a parse failure. -/

/-- Proleptic-Gregorian leap-year test. -/
def isLeapYear (y : Int) : Bool :=
  (y % 4 == 0 && y % 100 != 0) || y % 400 == 0

/-- Number of days in month `m` of year `y`. -/
def daysInMonth (y : Int) (m : Nat) : Nat :=
  if m = 2 then (if isLeapYear y then 29 else 28)
  else if m = 4 ∨ m = 6 ∨ m = 9 ∨ m = 11 then 30
  else 31

/-- Days since 1970-01-01 of the civil date `y-m-d`
(standard days-from-civil calendar arithmetic). -/
def daysFromCivil (y : Int) (m d : Nat) : Int :=
  let y' : Int := if m ≤ 2 then y - 1 else y
  let era : Int := Int.fdiv y' 400
  let yoe : Int := y' - era * 400
  let mShift : Nat := if 2 < m then m - 3 else m + 9
  let doy : Int := (((153 * mShift + 2) / 5 : Nat) : Int) + (d : Int) - 1
  let doe : Int := yoe * 365 + Int.fdiv yoe 4 - Int.fdiv yoe 100 + doy
  era * 146097 + doe - 719468

/-- Consume exactly `n` decimal digits from the front of `cs`. -/
def parseDigits (n : Nat) (cs : List Char) : Option (Nat × List Char) :=
  let ds := cs.take n
  if ds.length = n ∧ ds.all Char.isDigit then some (digitsVal ds, cs.drop n)
  else none

/-- Consume one expected character. -/
def expectChar (c : Char) : List Char → Option (List Char)
  | x :: rest => if x = c then some rest else none
  | [] => none

/-- Parse `HH:MM[:SS[.ffffff]]` as a number of seconds. -/
def parseTimeOfDay (cs : List Char) : Option (ℚ × List Char) := do
  let (hh, cs) ← parseDigits 2 cs
  let cs ← expectChar ':' cs
  let (mm, cs) ← parseDigits 2 cs
  if 24 ≤ hh ∨ 60 ≤ mm then none else
  match cs with
  | ':' :: cs2 => do
    let (ss, cs3) ← parseDigits 2 cs2
    if 60 ≤ ss then none else
    match cs3 with
    | '.' :: cs4 =>
      let ds := cs4.takeWhile Char.isDigit
      if 1 ≤ ds.length ∧ ds.length ≤ 6 then
        some (((hh * 3600 + mm * 60 + ss : Nat) : ℚ) +
          (digitsVal ds : ℚ) / ((10 : ℚ) ^ ds.length), cs4.drop ds.length)
      else none
    | _ => some (((hh * 3600 + mm * 60 + ss : Nat) : ℚ), cs3)
  | _ => some (((hh * 3600 + mm * 60 : Nat) : ℚ), cs)

/-- Parse a UTC offset `±HH:MM[:SS]` as a number of seconds. -/
def parseOffset (cs : List Char) : Option (ℚ × List Char) :=
  match cs with
  | c :: rest =>
    if c ≠ '+' ∧ c ≠ '-' then none else do
    let (oh, cs2) ← parseDigits 2 rest
    let cs3 ← expectChar ':' cs2
    let (om, cs4) ← parseDigits 2 cs3
    if 24 ≤ oh ∨ 60 ≤ om then none else do
    let (os, cs5) ← (match cs4 with
      | ':' :: r2 => do
        let (os, r3) ← parseDigits 2 r2
        if 60 ≤ os then none else some (os, r3)
      | _ => some (0, cs4))
    let total : ℚ := ((oh * 3600 + om * 60 + os : Nat) : ℚ)
    some (if c = '-' then -total else total, cs5)
  | [] => none

/-- Models `datetime.fromisoformat` on `YYYY-MM-DD[ sep HH:MM[:SS[.ffffff]][±HH:MM[:SS]]]`
strings: returns the instant in seconds together with an "aware" flag, or
`none` where Python raises `ValueError`. -/
def fromisoformat? (s : String) : Option (ℚ × Bool) := do
  let cs := s.toList
  let (y, cs) ← parseDigits 4 cs
  let cs ← expectChar '-' cs
  let (mo, cs) ← parseDigits 2 cs
  let cs ← expectChar '-' cs
  let (d, cs) ← parseDigits 2 cs
  if ¬ (1 ≤ mo ∧ mo ≤ 12) then none else
  if ¬ (1 ≤ d ∧ d ≤ daysInMonth (y : Int) mo) then none else
  let dateSec : ℚ := ((daysFromCivil (y : Int) mo d : Int) : ℚ) * 86400
  match cs with
  | [] => some (dateSec, false)
  | sep :: cs =>
    if sep ≠ 'T' ∧ sep ≠ ' ' then none else do
    let (tod, cs) ← parseTimeOfDay cs
    match cs with
    | [] => some (dateSec + tod, false)
    | _ => do
      let (off, cs) ← parseOffset cs
      if cs = [] then some (dateSec + tod - off, true) else none

/-! ## Shared statistics helpers -/

/-- Python `min(l)` on a nonempty list (the scripts only call it guarded or
crash first on the empty list; the `0` default is never observable). -/
def pyMin : List ℚ → ℚ
  | [] => 0
  | x :: xs => xs.foldl min x

/-- Python `max(l)` on a nonempty list. -/
def pyMax : List ℚ → ℚ
  | [] => 0
  | x :: xs => xs.foldl max x

/-- Python `sorted(l)` for rationals: a stable ascending sort.  Stability is
invisible at value level, and a stable sort by a total preorder is unique, so
`insertionSort` is extensionally Python's Timsort. -/
def sortAsc (l : List ℚ) : List ℚ := l.insertionSort (· ≤ ·)

/-- `sorted_spreads[len(sorted_spreads)//2]` — the element at index
`floor(n/2)` of the ascending sort (identical in both scripts). -/
def median_spread (spreads : List ℚ) : ℚ :=
  let ss := sortAsc spreads
  ss.getD (ss.length / 2) 0

/-- Python `/` on floats: raises `ZeroDivisionError` on a zero denominator. -/
def pyDiv (a b : ℚ) : Except PyErr ℚ :=
  if b = 0 then .error .zeroDivision else .ok (a / b)

/-- Python `float(s)` in `Except` form (report-phase conversions). -/
def pyFloat (s : String) : Except PyErr ℚ :=
  match parseFloat? s with
  | some v => .ok v
  | none => .error .valueError

/-- First matching bucket of the fixed histogram ranges: the inner
`for ... if low <= s < high: ...; break` loop. -/
def findBucket (ranges : List (String × ℚ × ℚ)) (s : ℚ) : Option String :=
  (ranges.find? (fun r => decide (r.2.1 ≤ s ∧ s < r.2.2))).map (·.1)

/-- One histogram update: increment the first matching bucket's counter,
or leave the counts alone when no bucket matches. -/
def bucketUpd (ranges : List (String × ℚ × ℚ)) (cs : String → Nat) (s : ℚ) :
    String → Nat :=
  match findBucket ranges s with
  | some label => fun l => if l == label then cs l + 1 else cs l
  | none => cs

/-- The histogram counts: for each spread, the first matching bucket (if any)
is incremented; modelled as the final count function over labels. -/
def distCounts (ranges : List (String × ℚ × ℚ)) (spreads : List ℚ) :
    String → Nat :=
  spreads.foldl (bucketUpd ranges) (fun _ => 0)

/-! ## The defensive script `analyze_csv_new.py` -/

namespace New

/-- One element of the `time_spreads` list of the defensive script
(the tuple appended at line 47). -/
structure TimeSpread where
  timestamp : String
  spread : ℚ
  pair : String
  reject_reason : String
  eth_price : ℚ
  gas_gwei : ℚ
  has_opp : Int
deriving DecidableEq, Repr, Inhabited

/-- One element of `high_spread_cases` (the dict appended at lines 57-64). -/
structure HighSpreadCase where
  timestamp : String
  pair : String
  spread : ℚ
  reject_reason : String
  eth_price : ℚ
  gas_gwei : ℚ
deriving DecidableEq, Repr, Inhabited

/-- The eight field values converted from a raw row (lines 34-41). -/
structure Fields where
  timestamp : String
  scan_num : Int
  pair : String
  spread : ℚ
  has_opp : Int
  reject_reason : String
  eth_price : ℚ
  gas_gwei : ℚ
deriving DecidableEq, Repr, Inhabited

/-- The mutable accumulator state of the read loop (lines 7-17). -/
structure State where
  spreads : List ℚ
  eth_prices : List ℚ
  gas_prices : List ℚ
  opportunities : Nat
  total_scans : Nat
  reject_reasons : List (String × Nat)
  pair_spreads : List (String × List ℚ)
  max_spread_entry : Option Row
  max_spread : ℚ
  time_spreads : List TimeSpread
  high_spread_cases : List HighSpreadCase
deriving DecidableEq, Repr

/-- The initial accumulator state. -/
def initState : State :=
  { spreads := [], eth_prices := [], gas_prices := [], opportunities := 0,
    total_scans := 0, reject_reasons := [], pair_spreads := [],
    max_spread_entry := none, max_spread := 0, time_spreads := [],
    high_spread_cases := [] }

/-- `defaultdict(int)` increment: `m[r] += 1` (insertion order preserved). -/
def bumpReason (m : List (String × Nat)) (r : String) : List (String × Nat) :=
  if m.any (fun p => p.1 == r) then
    m.map (fun p => if p.1 == r then (p.1, p.2 + 1) else p)
  else m ++ [(r, 1)]

/-- `defaultdict(list)` append: `m[pair].append(s)` (insertion order preserved). -/
def appendPairSpread (m : List (String × List ℚ)) (pair : String) (s : ℚ) :
    List (String × List ℚ) :=
  if m.any (fun p => p.1 == pair) then
    m.map (fun p => if p.1 == pair then (p.1, p.2 ++ [s]) else p)
  else m ++ [(pair, [s])]

/-- The guarded field conversions of lines 34-41: `none` exactly when some
conversion raises (`ValueError`), in which case the `except` clause skips the
row. -/
def parseFields (row : Row) : Option Fields := do
  let timestamp := getField row 0
  let scan_num ← if getField row 1 ≠ "" then parseInt? (getField row 1) else some 0
  let pair := getField row 2
  let spread ← if getField row 3 ≠ "" then parseFloat? (getField row 3) else some 0
  let has_opp ← if getField row 4 ≠ "" then parseInt? (getField row 4) else some 0
  let reject_reason := if 5 < row.length ∧ getField row 5 ≠ "" then pyStrip (getField row 5) else ""
  let eth_price ← if 27 < row.length ∧ getField row 27 ≠ "" then parseFloat? (getField row 27) else some 0
  let gas_gwei ← if 28 < row.length ∧ getField row 28 ≠ "" then parseFloat? (getField row 28) else some 0
  some { timestamp := timestamp, scan_num := scan_num, pair := pair,
         spread := spread, has_opp := has_opp, reject_reason := reject_reason,
         eth_price := eth_price, gas_gwei := gas_gwei }

/-- The `time_spreads` tuple built from the converted fields (line 47). -/
def toTimeSpread (f : Fields) : TimeSpread :=
  { timestamp := f.timestamp, spread := f.spread, pair := f.pair,
    reject_reason := f.reject_reason, eth_price := f.eth_price,
    gas_gwei := f.gas_gwei, has_opp := f.has_opp }

/-- The `high_spread_cases` dict built from the converted fields
(lines 57-64). -/
def toHighCase (f : Fields) : HighSpreadCase :=
  { timestamp := f.timestamp, pair := f.pair, spread := f.spread,
    reject_reason := f.reject_reason, eth_price := f.eth_price,
    gas_gwei := f.gas_gwei }

/-- One iteration of the read loop (lines 27-70): short rows are skipped
without counting; `total_scans` is incremented before the `try` block, so a
row whose conversions fail still counts toward it; all aggregate updates
happen only when every conversion succeeds. -/
def step (s : State) (row : Row) : State :=
  if row.length < 29 then s
  else
    match parseFields row with
    | none => { s with total_scans := s.total_scans + 1 }
    | some f =>
      { spreads := s.spreads ++ [f.spread]
        eth_prices := s.eth_prices ++ [f.eth_price]
        gas_prices := s.gas_prices ++ [f.gas_gwei]
        opportunities := s.opportunities + (if f.has_opp = 1 then 1 else 0)
        total_scans := s.total_scans + 1
        reject_reasons :=
          if f.reject_reason ≠ "" then bumpReason s.reject_reasons f.reject_reason
          else s.reject_reasons
        pair_spreads := appendPairSpread s.pair_spreads f.pair f.spread
        max_spread_entry :=
          if f.spread > s.max_spread then some row else s.max_spread_entry
        max_spread := if f.spread > s.max_spread then f.spread else s.max_spread
        time_spreads := s.time_spreads ++ [toTimeSpread f]
        high_spread_cases := s.high_spread_cases ++
          (if f.spread ≥ 17/100 ∧ f.has_opp = 0 then [toHighCase f] else []) }

/-- The converted fields of a row, or `none` when the row is skipped (too
short, or some conversion raised). -/
def rowValue? (row : Row) : Option Fields :=
  if row.length < 29 then none else parseFields row

/-- The fields of the rows that enter the aggregates, in file order. -/
def validFields (rows : List Row) : List Fields := rows.filterMap rowValue?

/-- A row together with its converted fields, or `none` when skipped. -/
def rowPair? (row : Row) : Option (Row × Fields) :=
  if row.length < 29 then none else (parseFields row).map (fun f => (row, f))

/-- Aggregated rows paired with their raw row (the raw row is what
`max_spread_entry` stores). -/
def validRows (rows : List Row) : List (Row × Fields) :=
  rows.filterMap rowPair?

/-- The running-maximum update, isolated: strictly greater replaces. -/
def maxStep (p : Option Row × ℚ) (rf : Row × Fields) : Option Row × ℚ :=
  if rf.2.spread > p.2 then (some rf.1, rf.2.spread) else p

/-- The reject-reason table update for one aggregated row, isolated. -/
def rejStep (m : List (String × Nat)) (f : Fields) : List (String × Nat) :=
  if f.reject_reason ≠ "" then bumpReason m f.reject_reason else m

/-- The per-pair spread-list update for one aggregated row, isolated. -/
def pairStep (m : List (String × List ℚ)) (f : Fields) :
    List (String × List ℚ) :=
  appendPairSpread m f.pair f.spread

/-- The whole read loop over the data rows (header already consumed). -/
def processRows (rows : List Row) : State := rows.foldl step initState

/-- The time-range computation (lines 96-108): parse the first and last
record's timestamp with `Z` replaced by `+00:00`; any failure inside the
`try` (a `ValueError` from parsing, or the `TypeError` from subtracting a
naive from an aware datetime) yields `hours = 0`. -/
def computeHours (ts : List TimeSpread) : ℚ :=
  match ts with
  | [] => 0
  | t :: rest =>
    let first_time := t.timestamp
    let last_time := ((t :: rest).getLastD t).timestamp
    match fromisoformat? (replaceZ first_time), fromisoformat? (replaceZ last_time) with
    | some a, some b => if a.2 = b.2 then (b.1 - a.1) / 3600 else 0
    | _, _ => 0

/-- The fixed histogram buckets of the defensive script (lines 167-175). -/
def spread_ranges : List (String × ℚ × ℚ) :=
  [("< 0.1%", 0, 1/10),
   ("0.1~0.17%", 1/10, 17/100),
   ("0.17~0.2%", 17/100, 2/10),
   ("0.2~0.3%", 2/10, 3/10),
   ("0.3~0.4%", 3/10, 4/10),
   ("0.4~0.5%", 4/10, 5/10),
   (">= 0.5%", 5/10, 999)]

/-- `sorted(time_spreads, key=lambda x: x[1], reverse=True)[:20]` — a stable
descending sort by spread, truncated to 20 (lines 190-191). -/
def sorted_time_spreads (ts : List TimeSpread) : List TimeSpread :=
  (ts.insertionSort (fun a b => b.spread ≤ a.spread)).take 20

/-- The values printed by the top-spread-case section (lines 137-145);
building it converts `row[27]` and `row[28]` with an unguarded `float`. -/
structure TopCase where
  pair : String
  spread_field : String
  timestamp : String
  opp_flag : Bool
  reject_disp : Option String
  eth_price : ℚ
  gas_gwei : ℚ
deriving DecidableEq, Repr, Inhabited

/-- The reject-reason section: either the frequency table (sorted by count
descending) or the no-explicit-reject branch with its percentage (which
divides by `total_scans`, lines 161-164). -/
inductive RejectSection where
  | table (rows : List (String × Nat × ℚ))
  | noReasons (total_explicit : Nat) (total_no_reason : Nat) (pct_no_reason : ℚ)
deriving DecidableEq, Repr, Inhabited

/-- All values the report prints, in print order; a field is `Option`-al when
the corresponding section body is conditional. -/
structure Report where
  first_time_disp : String
  last_time_disp : String
  total_scans : Nat
  hours : ℚ
  opportunities : Nat
  opp_rate : ℚ
  avg_spread : ℚ
  median_spread : ℚ
  min_spread_val : ℚ
  max_spread_val : ℚ
  avg_eth : ℚ
  max_eth : ℚ
  min_eth : ℚ
  eth_volatility : Option ℚ
  avg_gas : ℚ
  max_gas : ℚ
  min_gas : ℚ
  top_spread_case : Option TopCase
  pair_stats : List (String × ℚ × ℚ × ℚ × Nat)
  reject_section : RejectSection
  distribution : List (String × Nat × ℚ)
  top20 : List TimeSpread
  high_section : Option (Nat × List HighSpreadCase)
  concl_opp_pct : Option ℚ
deriving DecidableEq, Repr, Inhabited

/-- The top-spread-case section (lines 137-145): its body is rendered only
when `max_spread_entry` is truthy, and rendering converts fields 27 and 28
with an unguarded `float`. -/
def topSection (st : State) : Except PyErr (Option TopCase) :=
  match st.max_spread_entry with
  | none => pure none
  | some row => do
    let eth ← pyFloat (getField row 27)
    let gas ← pyFloat (getField row 28)
    pure (some
      { pair := getField row 2, spread_field := getField row 3,
        timestamp := getField row 0, opp_flag := getField row 4 == "1",
        reject_disp :=
          if 5 < row.length ∧ getField row 5 ≠ "" then some (getField row 5)
          else none,
        eth_price := eth, gas_gwei := gas })

/-- The per-pair section (lines 147-153), iterated in sorted key order. -/
def pairSection (st : State) :
    Except PyErr (List (String × ℚ × ℚ × ℚ × Nat)) :=
  (st.pair_spreads.insertionSort (fun a b => a.1 ≤ b.1)).mapM
    (fun p => do
      let avg ← pyDiv p.2.sum (p.2.length : ℚ)
      pure (p.1, avg, pyMin p.2, pyMax p.2, p.2.length))

/-- The reject-reason section (lines 155-164): the else branch divides by
`total_scans` without a guard. -/
def rejectSection (st : State) : Except PyErr RejectSection :=
  if st.reject_reasons ≠ [] then do
    let rows ← (st.reject_reasons.insertionSort
        (fun a b => -(a.2 : Int) ≤ -(b.2 : Int))).mapM
      (fun p => do
        let pct ← pyDiv (p.2 : ℚ) (st.total_scans : ℚ)
        pure (p.1, p.2, pct * 100))
    pure (RejectSection.table rows)
  else do
    let total_explicit := (st.reject_reasons.map (·.2)).sum
    let total_no_reason := st.total_scans - total_explicit
    let pct ← pyDiv (total_no_reason : ℚ) (st.total_scans : ℚ)
    pure (RejectSection.noReasons total_explicit total_no_reason (pct * 100))

/-- The conclusion's opportunity percentage (line 219), computed only when
at least one opportunity was found. -/
def conclSection (st : State) : Except PyErr (Option ℚ) :=
  if st.opportunities = 0 then pure none
  else do
    let pct ← pyDiv (st.opportunities : ℚ) (st.total_scans : ℚ)
    pure (some (pct * 100))

/-- The statistics-and-report phase (lines 72-230), with the failure points
the code leaves unguarded: the `float` conversions on the max-spread row and
the division by `total_scans` in the no-reject-reasons branch.  Sections are
computed in print order so the first failing section determines the error. -/
def buildReport (st : State) : Except PyErr Report := do
  let avg_spread : ℚ :=
    if st.spreads = [] then 0 else st.spreads.sum / (st.spreads.length : ℚ)
  let max_spread_val : ℚ := if st.spreads = [] then 0 else pyMax st.spreads
  let min_spread_val : ℚ := if st.spreads = [] then 0 else pyMin st.spreads
  let med_spread : ℚ := if st.spreads = [] then 0 else median_spread st.spreads
  let avg_eth : ℚ :=
    if st.eth_prices = [] then 0
    else st.eth_prices.sum / (st.eth_prices.length : ℚ)
  let max_eth : ℚ := if st.eth_prices = [] then 0 else pyMax st.eth_prices
  let min_eth : ℚ := if st.eth_prices = [] then 0 else pyMin st.eth_prices
  let avg_gas : ℚ :=
    if st.gas_prices = [] then 0
    else st.gas_prices.sum / (st.gas_prices.length : ℚ)
  let max_gas : ℚ := if st.gas_prices = [] then 0 else pyMax st.gas_prices
  let min_gas : ℚ := if st.gas_prices = [] then 0 else pyMin st.gas_prices
  let hours := computeHours st.time_spreads
  let first_disp :=
    match st.time_spreads with
    | [] => "N/A"
    | t :: _ => t.timestamp
  let last_disp :=
    match st.time_spreads with
    | [] => "N/A"
    | t :: rest => ((t :: rest).getLastD t).timestamp
  let opp_rate : ℚ :=
    if st.total_scans > 0 then (st.opportunities : ℚ) / (st.total_scans : ℚ) * 100
    else 0
  let eth_volatility :=
    if min_eth > 0 then some ((max_eth - min_eth) / min_eth * 100) else none
  let top_spread_case ← topSection st
  let pair_stats ← pairSection st
  let reject_section ← rejectSection st
  let distribution := spread_ranges.map (fun r =>
    let count := distCounts spread_ranges st.spreads r.1
    (r.1, count,
      if st.spreads ≠ [] then (count : ℚ) / (st.spreads.length : ℚ) * 100 else 0))
  let top20 := sorted_time_spreads st.time_spreads
  let high_section :=
    if st.high_spread_cases ≠ [] then
      some (st.high_spread_cases.length,
        (st.high_spread_cases.insertionSort (fun a b => b.spread ≤ a.spread)).take 10)
    else none
  let concl_opp_pct ← conclSection st
  pure
    { first_time_disp := first_disp, last_time_disp := last_disp,
      total_scans := st.total_scans, hours := hours,
      opportunities := st.opportunities, opp_rate := opp_rate,
      avg_spread := avg_spread, median_spread := med_spread,
      min_spread_val := min_spread_val, max_spread_val := max_spread_val,
      avg_eth := avg_eth, max_eth := max_eth, min_eth := min_eth,
      eth_volatility := eth_volatility, avg_gas := avg_gas,
      max_gas := max_gas, min_gas := min_gas,
      top_spread_case := top_spread_case, pair_stats := pair_stats,
      reject_section := reject_section, distribution := distribution,
      top20 := top20, high_section := high_section,
      concl_opp_pct := concl_opp_pct }

/-- The whole script: `next(reader)` raises `StopIteration` on an empty file;
otherwise the first row is discarded as the header, the remaining rows are
aggregated, and the report is built. -/
def runNew (rows : List Row) : Except PyErr Report :=
  match rows with
  | [] => .error .stopIteration
  | _header :: data => buildReport (processRows data)

end New

/-! ## The strict script `analyze_csv.py` -/

namespace Old

/-- One element of the `time_spreads` list of the strict script
(the 5-tuple appended at line 37). -/
structure TimeSpread where
  timestamp : String
  spread : ℚ
  pair : String
  reject_reason : String
  eth_price : ℚ
deriving DecidableEq, Repr, Inhabited

/-- The field values converted from a raw row (lines 27-32); conversions are
unguarded in this script, so failure of any of them aborts the run. -/
structure Fields where
  timestamp : String
  pair : String
  spread : ℚ
  has_opp : Int
  reject_reason : String
  eth_price : ℚ
deriving DecidableEq, Repr, Inhabited

/-- The mutable accumulator state of the read loop (lines 6-14). -/
structure State where
  spreads : List ℚ
  eth_prices : List ℚ
  opportunities : Nat
  total_scans : Nat
  reject_reasons : List (String × Nat)
  pair_spreads : List (String × List ℚ)
  max_spread_entry : Option Row
  max_spread : ℚ
  time_spreads : List TimeSpread
deriving DecidableEq, Repr

/-- The initial accumulator state. -/
def initState : State :=
  { spreads := [], eth_prices := [], opportunities := 0, total_scans := 0,
    reject_reasons := [], pair_spreads := [], max_spread_entry := none,
    max_spread := 0, time_spreads := [] }

/-- The unguarded conversions of lines 27-32: `none` exactly when `float` or
`int` raises, which in this script propagates out of the loop. -/
def parseFields (row : Row) : Option Fields := do
  let timestamp := getField row 0
  let pair := getField row 2
  let spread ← parseFloat? (getField row 3)
  let has_opp ← parseInt? (getField row 4)
  let reject_reason := if getField row 5 ≠ "" then pyStrip (getField row 5) else ""
  let eth_price ← parseFloat? (getField row 27)
  some { timestamp := timestamp, pair := pair, spread := spread,
         has_opp := has_opp, reject_reason := reject_reason,
         eth_price := eth_price }

/-- The `time_spreads` tuple built from the converted fields (line 37). -/
def toTimeSpread (f : Fields) : TimeSpread :=
  { timestamp := f.timestamp, spread := f.spread, pair := f.pair,
    reject_reason := f.reject_reason, eth_price := f.eth_price }

/-- One iteration of the read loop (lines 18-47): short rows are skipped
without counting; a conversion failure raises `ValueError`, terminating the
whole run. -/
def step (s : State) (row : Row) : Except PyErr State :=
  if row.length < 29 then .ok s
  else
    match parseFields row with
    | none => .error .valueError
    | some f =>
      .ok
        { spreads := s.spreads ++ [f.spread]
          eth_prices := s.eth_prices ++ [f.eth_price]
          opportunities := s.opportunities + (if f.has_opp = 1 then 1 else 0)
          total_scans := s.total_scans + 1
          reject_reasons :=
            if f.reject_reason ≠ "" then New.bumpReason s.reject_reasons f.reject_reason
            else s.reject_reasons
          pair_spreads := New.appendPairSpread s.pair_spreads f.pair f.spread
          max_spread_entry :=
            if f.spread > s.max_spread then some row else s.max_spread_entry
          max_spread := if f.spread > s.max_spread then f.spread else s.max_spread
          time_spreads := s.time_spreads ++ [toTimeSpread f] }

/-- A row together with its converted fields, or `none` when skipped
(short row); parse failure is not a skip in this script but an abort. -/
def rowPair? (row : Row) : Option (Row × Fields) :=
  if row.length < 29 then none else (parseFields row).map (fun f => (row, f))

/-- Aggregated rows paired with their raw row, as for the defensive script;
these are the rows the loop has consumed when it succeeds. -/
def validRows (rows : List Row) : List (Row × Fields) :=
  rows.filterMap rowPair?

/-- The running-maximum update of the strict script, isolated. -/
def maxStep (p : Option Row × ℚ) (rf : Row × Fields) : Option Row × ℚ :=
  if rf.2.spread > p.2 then (some rf.1, rf.2.spread) else p

/-- The whole read loop, which reads every row of the file (this script does
not skip a header row) and stops at the first conversion error. -/
def processRows (rows : List Row) : Except PyErr State :=
  rows.foldlM step initState

/-- The fixed histogram buckets of the strict script (lines 112-119). -/
def spread_ranges : List (String × ℚ × ℚ) :=
  [("< 0.1%", 0, 1/10),
   ("0.1~0.2%", 1/10, 2/10),
   ("0.2~0.3%", 2/10, 3/10),
   ("0.3~0.4%", 3/10, 4/10),
   ("0.4~0.5%", 4/10, 5/10),
   (">= 0.5%", 5/10, 999)]

/-- `sorted(time_spreads, key=lambda x: x[1], reverse=True)[:10]` — a stable
descending sort by spread, truncated to 10 (lines 134-135). -/
def sorted_time_spreads (ts : List TimeSpread) : List TimeSpread :=
  (ts.insertionSort (fun a b => b.spread ≤ a.spread)).take 10

/-- `ts.split('T')` on the character list, then the second part truncated to
8 characters: the strict script's `ts.split('T')[1][:8]` (line 137), which
raises `IndexError` when the timestamp has no `'T'`. -/
def splitOnChar (c : Char) (cs : List Char) : List (List Char) :=
  cs.foldr
    (fun x acc =>
      match acc with
      | [] => [[x]]
      | h :: t => if x = c then [] :: (h :: t) else (x :: h) :: t)
    [[]]

/-- `ts.split('T')[1][:8]` in `Except` form. -/
def timeStr (ts : String) : Except PyErr String :=
  match splitOnChar 'T' ts.toList with
  | _ :: second :: _ => .ok (String.mk (second.take 8))
  | _ => .error .indexError

/-- The values printed by the strict script's top-spread-case section
(lines 76-84), with its unguarded `float` conversions of fields 19, 21, 27. -/
structure TopCase where
  pair : String
  spread_field : String
  timestamp : String
  buy_dex : String
  buy_price : ℚ
  sell_dex : String
  sell_rate : ℚ
  opp_flag : Bool
  reject_disp : Option String
  eth_price : ℚ
deriving DecidableEq, Repr, Inhabited

/-- The reject-reason section of the strict script: the frequency table
(sorted by count descending, each with its percentage), or the else branch
which only reports the totals (no division there in this script). -/
inductive RejectSection where
  | table (rows : List (String × Nat × ℚ))
  | noReasons (total_explicit : Nat)
deriving DecidableEq, Repr, Inhabited

/-- All values the strict script's report prints, in print order. -/
structure Report where
  total_scans : Nat
  opportunities : Nat
  avg_spread : ℚ
  median_spread : ℚ
  min_spread_val : ℚ
  max_spread_val : ℚ
  top_spread_case : Option TopCase
  pair_stats : List (String × ℚ × ℚ × ℚ)
  avg_eth : ℚ
  max_eth : ℚ
  min_eth : ℚ
  eth_volatility : Option ℚ
  reject_section : RejectSection
  distribution : List (String × Nat × ℚ)
  top10 : List (TimeSpread × String)
deriving DecidableEq, Repr, Inhabited

/-- The strict script's top-spread-case section (lines 76-84): rendered only
when `max_spread_entry` is truthy; converts fields 19, 21 and 27 with an
unguarded `float`. -/
def topSection (st : State) : Except PyErr (Option TopCase) :=
  match st.max_spread_entry with
  | none => pure none
  | some row => do
    let buy_price ← pyFloat (getField row 19)
    let sell_rate ← pyFloat (getField row 21)
    let eth ← pyFloat (getField row 27)
    pure (some
      { pair := getField row 2, spread_field := getField row 3,
        timestamp := getField row 0, buy_dex := getField row 18,
        buy_price := buy_price, sell_dex := getField row 20,
        sell_rate := sell_rate, opp_flag := getField row 4 == "1",
        reject_disp :=
          if getField row 5 ≠ "" then some (getField row 5) else none,
        eth_price := eth })

/-- The per-pair section (lines 86-91), iterated in sorted key order. -/
def pairSection (st : State) : Except PyErr (List (String × ℚ × ℚ × ℚ)) :=
  (st.pair_spreads.insertionSort (fun a b => a.1 ≤ b.1)).mapM
    (fun p => do
      let avg ← pyDiv p.2.sum (p.2.length : ℚ)
      pure (p.1, avg, pyMin p.2, pyMax p.2))

/-- The reject-reason section (lines 101-109); the else branch of this script
prints only totals and performs no division. -/
def rejectSection (st : State) : Except PyErr RejectSection :=
  if st.reject_reasons ≠ [] then do
    let rows ← (st.reject_reasons.insertionSort
        (fun a b => -(a.2 : Int) ≤ -(b.2 : Int))).mapM
      (fun p => do
        let pct ← pyDiv (p.2 : ℚ) (st.total_scans : ℚ)
        pure (p.1, p.2, pct * 100))
    pure (RejectSection.table rows)
  else
    pure (RejectSection.noReasons (st.reject_reasons.map (·.2)).sum)

/-- The top-10 section (lines 134-139): each line recomputes the time-of-day
string with the unguarded `ts.split('T')[1][:8]`. -/
def top10Section (st : State) : Except PyErr (List (TimeSpread × String)) :=
  (sorted_time_spreads st.time_spreads).mapM (fun t => do
    let ts ← timeStr t.timestamp
    pure (t, ts))

/-- The statistics-and-report phase of the strict script (lines 49-151): the
statistics divide by the list lengths unguarded (so an empty file dies with
`ZeroDivisionError` at line 50), and the top-10 rendering calls
`ts.split('T')[1]` unguarded. -/
def buildReport (st : State) : Except PyErr Report := do
  let avg_spread ← pyDiv st.spreads.sum (st.spreads.length : ℚ)
  let max_spread_val := pyMax st.spreads
  let min_spread_val := pyMin st.spreads
  let med_spread := median_spread st.spreads
  let avg_eth ← pyDiv st.eth_prices.sum (st.eth_prices.length : ℚ)
  let max_eth := pyMax st.eth_prices
  let min_eth := pyMin st.eth_prices
  let top_spread_case ← topSection st
  let pair_stats ← pairSection st
  let eth_volatility :=
    if min_eth > 0 then some ((max_eth - min_eth) / min_eth * 100) else none
  let reject_section ← rejectSection st
  let distribution := spread_ranges.map (fun r =>
    let count := distCounts spread_ranges st.spreads r.1
    (r.1, count,
      if st.spreads ≠ [] then (count : ℚ) / (st.spreads.length : ℚ) * 100 else 0))
  let top10 ← top10Section st
  pure
    { total_scans := st.total_scans, opportunities := st.opportunities,
      avg_spread := avg_spread, median_spread := med_spread,
      min_spread_val := min_spread_val, max_spread_val := max_spread_val,
      top_spread_case := top_spread_case, pair_stats := pair_stats,
      avg_eth := avg_eth, max_eth := max_eth, min_eth := min_eth,
      eth_volatility := eth_volatility, reject_section := reject_section,
      distribution := distribution, top10 := top10 }

/-- The whole strict script: aggregate all rows (fail-fast), then report.
If the loop raises, nothing at all is printed. -/
def runOld (rows : List Row) : Except PyErr Report := do
  let st ← processRows rows
  buildReport st

end Old

/-! ## Concrete fixture rows used to evaluate the scripts -/

/-- A 29-field row with the given consumed fields; indices 6-26 are blank
except where a fixture fills them. -/
def mkRow (ts scan pair spread opp rej eth gas : String) : Row :=
  [ts, scan, pair, spread, opp, rej] ++ List.replicate 21 "" ++ [eth, gas]

/-- A header row (any single-field row; the defensive script discards it). -/
def hdrRow : Row := ["timestamp"]

/-- A 29-field row whose spread field is not numeric. -/
def cexRowC1 : Row := mkRow "t" "" "P" "abc" "0" "" "" ""

/-- A fully parseable row, spread 0.3, with an explicit reject reason. -/
def wRowA : Row := mkRow "2025-01-01T00:00:00Z" "1" "A" "0.3" "0" "x" "1" "1"

/-- A fully parseable row, spread 0.5. -/
def wRowB : Row := mkRow "2025-01-01T01:00:00Z" "2" "B" "0.5" "0" "" "1" "1"

/-- A fully parseable row, spread 0.5 (ties with `wRowB`). -/
def wRowC : Row := mkRow "2025-01-01T02:00:00Z" "3" "C" "0.5" "0" "" "1" "1"

/-- A fully parseable row with spread exactly 0. -/
def zRow1 : Row := mkRow "2025-01-01T00:00:00Z" "1" "A" "0" "0" "" "1" "1"

/-- A second fully parseable row with spread exactly 0. -/
def zRow2 : Row := mkRow "2025-01-01T00:30:00Z" "2" "B" "0" "0" "" "1" "1"

/-- A 29-field row whose spread is not numeric (strict-script fixture). -/
def badC8Row : Row := mkRow "t" "1" "P" "abc" "0" "" "1" "1"

/-- Unparseable timestamp and an empty ETH-price field: the loop accepts it
(`eth_price` defaults to 0) but the report's `float(row[27])` dies on it. -/
def c9BadRow : Row := mkRow "garbage" "1" "A" "0.5" "0" "" "" "1"

/-- Unparseable timestamp but otherwise benign fields. -/
def c9GoodRow : Row := mkRow "garbage" "1" "A" "0.5" "0" "x" "100" "5"

/-- The report the defensive script prints for `[hdrRow, c9GoodRow]`. -/
def c9Rep : New.Report := (New.runNew [hdrRow, c9GoodRow]).toOption.getD default

/-- The strict-loop state after the two zero-spread rows. -/
def zStateOld : Old.State :=
  (Old.processRows [zRow1, zRow2]).toOption.getD Old.initState

/-- The strict-loop state after `[wRowA, wRowB, wRowC]`. -/
def c4StateOld : Old.State :=
  (Old.processRows [wRowA, wRowB, wRowC]).toOption.getD Old.initState

/-- The strict-loop state after `[wRowA]`. -/
def c6StateOld : Old.State :=
  (Old.processRows [wRowA]).toOption.getD Old.initState

/-- The defensive report for `[hdrRow, zRow1]` (a zero-spread record). -/
def c10RepNew : New.Report := (New.runNew [hdrRow, zRow1]).toOption.getD default

/-- The strict report for `[zRow1]`. -/
def c10RepOld : Old.Report := (Old.runOld [zRow1]).toOption.getD default

/-- The converted fields of `wRowB` in the defensive script. -/
def wRowBFields : New.Fields :=
  { timestamp := "2025-01-01T01:00:00Z", scan_num := 2, pair := "B",
    spread := 1/2, has_opp := 0, reject_reason := "", eth_price := 1,
    gas_gwei := 1 }

/-- The converted fields of `wRowB` in the strict script. -/
def wRowBFieldsOld : Old.Fields :=
  { timestamp := "2025-01-01T01:00:00Z", pair := "B", spread := 1/2,
    has_opp := 0, reject_reason := "", eth_price := 1 }

/-- A concrete record fixture for the top-K property. -/
def wTS1 : New.TimeSpread :=
  { timestamp := "ta", spread := 1, pair := "A", reject_reason := "",
    eth_price := 1, gas_gwei := 1, has_opp := 0 }

/-- A second record with the same spread as `wTS1`. -/
def wTS2 : New.TimeSpread :=
  { timestamp := "tb", spread := 1, pair := "B", reject_reason := "",
    eth_price := 1, gas_gwei := 1, has_opp := 0 }

/-! ## Characterization of the defensive read loop

Each aggregate of the final state is determined by the sub-sequence of rows
that survive the length filter and the conversions. -/

theorem new_step_total (s : New.State) (row : Row) :
    (New.step s row).total_scans =
      s.total_scans + (if row.length < 29 then 0 else 1) := by
  unfold New.step
  split
  · simp [*]
  · cases h : New.parseFields row <;> simp [h, *]

theorem new_foldl_total (rows : List Row) : ∀ s : New.State,
    (rows.foldl New.step s).total_scans =
      s.total_scans + rows.countP (fun r => decide (¬ r.length < 29)) := by
  induction rows with
  | nil => intro s; simp
  | cons r t ih =>
    intro s
    simp only [List.foldl_cons, List.countP_cons]
    rw [ih, new_step_total]
    by_cases h : r.length < 29 <;> simp [h]
    omega

theorem new_step_spreads (s : New.State) (row : Row) :
    (New.step s row).spreads =
      s.spreads ++ ((New.rowValue? row).elim [] fun f => [f.spread]) := by
  unfold New.step New.rowValue?
  split
  · simp [*]
  · cases h : New.parseFields row <;> simp [h, *]

theorem new_foldl_spreads (rows : List Row) : ∀ s : New.State,
    (rows.foldl New.step s).spreads =
      s.spreads ++ (New.validFields rows).map (·.spread) := by
  induction rows with
  | nil => intro s; simp [New.validFields]
  | cons r t ih =>
    intro s
    simp only [List.foldl_cons]
    rw [ih, new_step_spreads]
    unfold New.validFields
    cases h : New.rowValue? r <;>
      simp [List.filterMap_cons, h, New.validFields]

theorem new_step_eth (s : New.State) (row : Row) :
    (New.step s row).eth_prices =
      s.eth_prices ++ ((New.rowValue? row).elim [] fun f => [f.eth_price]) := by
  unfold New.step New.rowValue?
  split
  · simp [*]
  · cases h : New.parseFields row <;> simp [h, *]

theorem new_foldl_eth (rows : List Row) : ∀ s : New.State,
    (rows.foldl New.step s).eth_prices =
      s.eth_prices ++ (New.validFields rows).map (·.eth_price) := by
  induction rows with
  | nil => intro s; simp [New.validFields]
  | cons r t ih =>
    intro s
    simp only [List.foldl_cons]
    rw [ih, new_step_eth]
    unfold New.validFields
    cases h : New.rowValue? r <;>
      simp [List.filterMap_cons, h, New.validFields]

theorem new_step_gas (s : New.State) (row : Row) :
    (New.step s row).gas_prices =
      s.gas_prices ++ ((New.rowValue? row).elim [] fun f => [f.gas_gwei]) := by
  unfold New.step New.rowValue?
  split
  · simp [*]
  · cases h : New.parseFields row <;> simp [h, *]

theorem new_foldl_gas (rows : List Row) : ∀ s : New.State,
    (rows.foldl New.step s).gas_prices =
      s.gas_prices ++ (New.validFields rows).map (·.gas_gwei) := by
  induction rows with
  | nil => intro s; simp [New.validFields]
  | cons r t ih =>
    intro s
    simp only [List.foldl_cons]
    rw [ih, new_step_gas]
    unfold New.validFields
    cases h : New.rowValue? r <;>
      simp [List.filterMap_cons, h, New.validFields]

theorem new_step_time (s : New.State) (row : Row) :
    (New.step s row).time_spreads =
      s.time_spreads ++
        ((New.rowValue? row).elim [] fun f => [New.toTimeSpread f]) := by
  unfold New.step New.rowValue?
  split
  · simp [*]
  · cases h : New.parseFields row <;> simp [h, *]

theorem new_foldl_time (rows : List Row) : ∀ s : New.State,
    (rows.foldl New.step s).time_spreads =
      s.time_spreads ++ (New.validFields rows).map New.toTimeSpread := by
  induction rows with
  | nil => intro s; simp [New.validFields]
  | cons r t ih =>
    intro s
    simp only [List.foldl_cons]
    rw [ih, new_step_time]
    unfold New.validFields
    cases h : New.rowValue? r <;>
      simp [List.filterMap_cons, h, New.validFields]

theorem new_step_opps (s : New.State) (row : Row) :
    (New.step s row).opportunities =
      s.opportunities +
        ((New.rowValue? row).elim 0 fun f => if f.has_opp = 1 then 1 else 0) := by
  unfold New.step New.rowValue?
  split
  · simp [*]
  · cases h : New.parseFields row <;> simp [h, *]

theorem new_foldl_opps (rows : List Row) : ∀ s : New.State,
    (rows.foldl New.step s).opportunities =
      s.opportunities +
        (New.validFields rows).countP (fun f => decide (f.has_opp = 1)) := by
  induction rows with
  | nil => intro s; simp [New.validFields]
  | cons r t ih =>
    intro s
    simp only [List.foldl_cons]
    rw [ih, new_step_opps]
    unfold New.validFields
    cases h : New.rowValue? r with
    | none => simp [List.filterMap_cons, h, New.validFields]
    | some f =>
      simp only [List.filterMap_cons, h, Option.elim, New.validFields,
        List.countP_cons]
      by_cases hf : f.has_opp = 1 <;> simp [hf]
      omega

theorem new_step_high (s : New.State) (row : Row) :
    (New.step s row).high_spread_cases =
      s.high_spread_cases ++
        ((New.rowValue? row).elim [] fun f =>
          if f.spread ≥ 17/100 ∧ f.has_opp = 0 then [New.toHighCase f] else []) := by
  unfold New.step New.rowValue?
  split
  · simp [*]
  · cases h : New.parseFields row <;> simp [h, *]

theorem new_foldl_high (rows : List Row) : ∀ s : New.State,
    (rows.foldl New.step s).high_spread_cases =
      s.high_spread_cases ++
        ((New.validFields rows).filter
          (fun f => decide (f.spread ≥ 17/100 ∧ f.has_opp = 0))).map
          New.toHighCase := by
  induction rows with
  | nil => intro s; simp [New.validFields]
  | cons r t ih =>
    intro s
    simp only [List.foldl_cons]
    rw [ih, new_step_high]
    unfold New.validFields
    cases h : New.rowValue? r with
    | none => simp [List.filterMap_cons, h, New.validFields]
    | some f =>
      simp only [List.filterMap_cons, h, Option.elim, New.validFields,
        List.filter_cons]
      by_cases hf : f.spread ≥ 17/100 ∧ f.has_opp = 0 <;> simp [hf]

theorem new_step_reject (s : New.State) (row : Row) :
    (New.step s row).reject_reasons =
      (New.rowValue? row).elim s.reject_reasons
        (fun f => New.rejStep s.reject_reasons f) := by
  unfold New.step New.rowValue? New.rejStep
  split
  · simp [*]
  · cases h : New.parseFields row <;> simp [h, *]

theorem new_foldl_reject (rows : List Row) : ∀ s : New.State,
    (rows.foldl New.step s).reject_reasons =
      (New.validFields rows).foldl New.rejStep s.reject_reasons := by
  induction rows with
  | nil => intro s; simp [New.validFields]
  | cons r t ih =>
    intro s
    simp only [List.foldl_cons]
    rw [ih, new_step_reject]
    unfold New.validFields
    cases h : New.rowValue? r <;>
      simp [List.filterMap_cons, h, New.validFields]

theorem new_step_pairs (s : New.State) (row : Row) :
    (New.step s row).pair_spreads =
      (New.rowValue? row).elim s.pair_spreads
        (fun f => New.pairStep s.pair_spreads f) := by
  unfold New.step New.rowValue? New.pairStep
  split
  · simp [*]
  · cases h : New.parseFields row <;> simp [h, *]

theorem new_foldl_pairs (rows : List Row) : ∀ s : New.State,
    (rows.foldl New.step s).pair_spreads =
      (New.validFields rows).foldl New.pairStep s.pair_spreads := by
  induction rows with
  | nil => intro s; simp [New.validFields]
  | cons r t ih =>
    intro s
    simp only [List.foldl_cons]
    rw [ih, new_step_pairs]
    unfold New.validFields
    cases h : New.rowValue? r <;>
      simp [List.filterMap_cons, h, New.validFields]

theorem new_step_max (s : New.State) (row : Row) :
    ((New.step s row).max_spread_entry, (New.step s row).max_spread) =
      (New.rowPair? row).elim (s.max_spread_entry, s.max_spread)
        (fun rf => New.maxStep (s.max_spread_entry, s.max_spread) rf) := by
  unfold New.step New.rowPair? New.maxStep
  split
  · simp [*]
  · cases h : New.parseFields row with
    | none => simp [h, *]
    | some f =>
      by_cases hf : f.spread > s.max_spread <;> simp [h, hf, *]

theorem new_foldl_max (rows : List Row) : ∀ s : New.State,
    ((rows.foldl New.step s).max_spread_entry,
      (rows.foldl New.step s).max_spread) =
      (New.validRows rows).foldl New.maxStep
        (s.max_spread_entry, s.max_spread) := by
  induction rows with
  | nil => intro s; simp [New.validRows]
  | cons r t ih =>
    intro s
    simp only [List.foldl_cons]
    rw [ih]
    have h2 := new_step_max s r
    unfold New.validRows
    cases h : New.rowPair? r with
    | none =>
      simp only [h, Option.elim] at h2
      simp only [List.filterMap_cons, h]
      rw [h2]
    | some rf =>
      simp only [h, Option.elim] at h2
      simp only [List.filterMap_cons, h, List.foldl_cons]
      rw [h2]

/-! ## The strict read loop: success characterization and fail-fast -/

theorem except_error_bind {ε α β : Type} (e : ε) (f : α → Except ε β) :
    (Except.error e >>= f) = Except.error e := rfl

theorem except_ok_bind {ε α β : Type} (a : α) (f : α → Except ε β) :
    (Except.ok a >>= f) = f a := rfl

theorem bumpReason_keys (m : List (String × Nat)) (r : String) (hr : r ≠ "")
    (hm : "" ∉ m.map Prod.fst) : "" ∉ (New.bumpReason m r).map Prod.fst := by
  unfold New.bumpReason
  split
  · have : (fun p : String × Nat => if p.1 == r then (p.1, p.2 + 1) else p) =
        (fun p => ((if p.1 == r then p.1 else p.1 : String),
          (if p.1 == r then p.2 + 1 else p.2 : Nat))) := by
      funext p
      by_cases h : p.1 == r <;> simp [h]
    simp only [this]
    intro hmem
    apply hm
    simp only [List.map_map] at hmem ⊢
    simpa using hmem
  · intro hmem
    simp only [List.map_append, List.mem_append] at hmem
    rcases hmem with hmem | hmem
    · exact hm hmem
    · simp at hmem
      exact hr hmem.symm

theorem old_step_ok_cases (s : Old.State) (row : Row) (s' : Old.State)
    (h : Old.step s row = .ok s') :
    (Old.rowPair? row = none ∧ s' = s) ∨
    (∃ f, Old.rowPair? row = some (row, f) ∧
      (s'.max_spread_entry, s'.max_spread) =
        Old.maxStep (s.max_spread_entry, s.max_spread) (row, f) ∧
      s'.reject_reasons =
        (if f.reject_reason ≠ "" then New.bumpReason s.reject_reasons f.reject_reason
         else s.reject_reasons)) := by
  unfold Old.step at h
  unfold Old.rowPair?
  split at h
  · left
    refine ⟨by simp [*], ?_⟩
    cases h
    rfl
  · cases hp : Old.parseFields row with
    | none => rw [hp] at h; cases h
    | some f =>
      rw [hp] at h
      cases h
      right
      refine ⟨f, by simp [hp, *], ?_, rfl⟩
      unfold Old.maxStep
      by_cases hf : f.spread > s.max_spread <;> simp [hf]

theorem old_foldlM_max (rows : List Row) : ∀ s st : Old.State,
    rows.foldlM Old.step s = .ok st →
    (st.max_spread_entry, st.max_spread) =
      (Old.validRows rows).foldl Old.maxStep
        (s.max_spread_entry, s.max_spread) := by
  induction rows with
  | nil =>
    intro s st h
    simp only [List.foldlM_nil] at h
    cases h
    simp [Old.validRows]
  | cons r t ih =>
    intro s st h
    rw [List.foldlM_cons] at h
    cases hs : Old.step s r with
    | error e => rw [hs, except_error_bind] at h; cases h
    | ok s' =>
      rw [hs, except_ok_bind] at h
      rcases old_step_ok_cases s r s' hs with ⟨hnone, rfl⟩ | ⟨f, hsome, hmax, -⟩
      · unfold Old.validRows
        simp only [List.filterMap_cons, hnone]
        exact ih _ st h
      · unfold Old.validRows
        simp only [List.filterMap_cons, hsome, List.foldl_cons]
        rw [← hmax]
        exact ih s' st h

theorem old_foldlM_reject_keys (rows : List Row) : ∀ s st : Old.State,
    rows.foldlM Old.step s = .ok st →
    "" ∉ s.reject_reasons.map Prod.fst →
    "" ∉ st.reject_reasons.map Prod.fst := by
  induction rows with
  | nil =>
    intro s st h hk
    simp only [List.foldlM_nil] at h
    cases h
    exact hk
  | cons r t ih =>
    intro s st h hk
    rw [List.foldlM_cons] at h
    cases hs : Old.step s r with
    | error e => rw [hs, except_error_bind] at h; cases h
    | ok s' =>
      rw [hs, except_ok_bind] at h
      refine ih s' st h ?_
      rcases old_step_ok_cases s r s' hs with ⟨-, rfl⟩ | ⟨f, -, -, hrej⟩
      · exact hk
      · rw [hrej]
        split
        · exact bumpReason_keys _ _ (by assumption) hk
        · exact hk

theorem old_parseFields_none (row : Row)
    (h : parseFloat? (getField row 3) = none ∨
      parseInt? (getField row 4) = none ∨
      parseFloat? (getField row 27) = none) :
    Old.parseFields row = none := by
  unfold Old.parseFields
  cases h3 : parseFloat? (getField row 3) with
  | none => rfl
  | some v3 =>
    cases h4 : parseInt? (getField row 4) with
    | none => simp [Option.bind]
    | some v4 =>
      cases h27 : parseFloat? (getField row 27) with
      | none => simp [Option.bind]
      | some v27 =>
        rcases h with h | h | h
        · rw [h3] at h; cases h
        · rw [h4] at h; cases h
        · rw [h27] at h; cases h

theorem old_step_error (row : Row) (hlen : ¬ row.length < 29)
    (hbad : Old.parseFields row = none) (s : Old.State) :
    Old.step s row = .error .valueError := by
  unfold Old.step
  rw [if_neg hlen, hbad]

theorem old_foldlM_error (rows : List Row) (r : Row) (hr : r ∈ rows)
    (hstep : ∀ s, Old.step s r = .error .valueError) :
    ∀ s, ∃ e, rows.foldlM Old.step s = .error e := by
  induction rows with
  | nil => cases hr
  | cons x t ih =>
    intro s
    rw [List.foldlM_cons]
    cases hx : Old.step s x with
    | error e => exact ⟨e, by rw [except_error_bind]⟩
    | ok s' =>
      rcases List.mem_cons.mp hr with rfl | hmem
      · rw [hstep s] at hx; cases hx
      · obtain ⟨e, he⟩ := ih hmem s'
        exact ⟨e, by rw [except_ok_bind]; exact he⟩

/-! ## Order statistics: Python min, max and the median index rule -/

theorem foldl_min_le_init (xs : List ℚ) : ∀ x : ℚ, xs.foldl min x ≤ x := by
  induction xs with
  | nil => intro x; simp
  | cons y ys ih =>
    intro x
    simp only [List.foldl_cons]
    exact le_trans (ih (min x y)) (min_le_left x y)

theorem foldl_min_le_mem (xs : List ℚ) : ∀ x a : ℚ, a ∈ xs → xs.foldl min x ≤ a := by
  induction xs with
  | nil => intro x a ha; cases ha
  | cons y ys ih =>
    intro x a ha
    simp only [List.foldl_cons]
    rcases List.mem_cons.mp ha with rfl | ha
    · exact le_trans (foldl_min_le_init ys (min x a)) (min_le_right x a)
    · exact ih (min x y) a ha

theorem pyMin_le (l : List ℚ) (a : ℚ) (ha : a ∈ l) : pyMin l ≤ a := by
  cases l with
  | nil => cases ha
  | cons x xs =>
    unfold pyMin
    rcases List.mem_cons.mp ha with rfl | ha
    · exact foldl_min_le_init xs a
    · exact foldl_min_le_mem xs x a ha

theorem init_le_foldl_max (xs : List ℚ) : ∀ x : ℚ, x ≤ xs.foldl max x := by
  induction xs with
  | nil => intro x; simp
  | cons y ys ih =>
    intro x
    simp only [List.foldl_cons]
    exact le_trans (le_max_left x y) (ih (max x y))

theorem mem_le_foldl_max (xs : List ℚ) : ∀ x a : ℚ, a ∈ xs → a ≤ xs.foldl max x := by
  induction xs with
  | nil => intro x a ha; cases ha
  | cons y ys ih =>
    intro x a ha
    simp only [List.foldl_cons]
    rcases List.mem_cons.mp ha with rfl | ha
    · exact le_trans (le_max_right x a) (init_le_foldl_max ys (max x a))
    · exact ih (max x y) a ha

theorem le_pyMax (l : List ℚ) (a : ℚ) (ha : a ∈ l) : a ≤ pyMax l := by
  cases l with
  | nil => cases ha
  | cons x xs =>
    unfold pyMax
    rcases List.mem_cons.mp ha with rfl | ha
    · exact init_le_foldl_max xs a
    · exact mem_le_foldl_max xs x a ha

theorem median_spread_mem (l : List ℚ) (h : l ≠ []) : median_spread l ∈ l := by
  unfold median_spread sortAsc
  have hlen : (l.insertionSort (· ≤ ·)).length = l.length :=
    List.length_insertionSort _ l
  have hpos : 0 < l.length := List.length_pos.mpr h
  have hlt : (l.insertionSort (· ≤ ·)).length / 2 < (l.insertionSort (· ≤ ·)).length := by
    rw [hlen]; exact Nat.div_lt_self hpos (by norm_num)
  rw [List.getD_eq_getElem _ _ hlt]
  have := List.getElem_mem hlt
  exact (List.mem_insertionSort (· ≤ ·)).mp this

/-! ## Histogram bucket lemmas -/

theorem findBucket_mem (ranges : List (String × ℚ × ℚ)) (s : ℚ) (label : String)
    (h : findBucket ranges s = some label) : label ∈ ranges.map Prod.fst := by
  unfold findBucket at h
  cases hf : ranges.find? (fun r => decide (r.2.1 ≤ s ∧ s < r.2.2)) with
  | none => rw [hf] at h; cases h
  | some r =>
    rw [hf] at h
    simp only [Option.map_some'] at h
    cases h
    exact List.mem_map_of_mem Prod.fst (List.mem_of_find?_eq_some hf)

theorem keys_bump_sum (label : String) (c : String → Nat) :
    ∀ keys : List String, keys.Nodup → label ∈ keys →
    (keys.map (fun k => if k == label then c k + 1 else c k)).sum =
      (keys.map c).sum + 1 := by
  intro keys
  induction keys with
  | nil => intro _ hm; cases hm
  | cons k ks ih =>
    intro hnd hm
    simp only [List.map_cons, List.sum_cons]
    by_cases hkl : k = label
    · subst hkl
      have hnot : k ∉ ks := (List.nodup_cons.mp hnd).1
      have hsame : ks.map (fun x => if x == k then c x + 1 else c x) = ks.map c := by
        apply List.map_congr_left
        intro x hx
        have hxk : ¬ (x == k) = true := by
          simp only [beq_iff_eq]
          rintro rfl
          exact hnot hx
        simp [hxk]
      rw [hsame]
      simp only [beq_self_eq_true, if_true]
      omega
    · have hm' : label ∈ ks := by
        rcases List.mem_cons.mp hm with h | h
        · exact absurd h.symm hkl
        · exact h
      rw [ih (List.nodup_cons.mp hnd).2 hm']
      have hne : ¬ (k == label) = true := by simp [hkl]
      rw [if_neg hne]
      omega

theorem bucketUpd_sum (ranges : List (String × ℚ × ℚ))
    (hnd : (ranges.map Prod.fst).Nodup) (c : String → Nat) (s : ℚ) :
    (ranges.map (fun r => bucketUpd ranges c s r.1)).sum =
      (ranges.map (fun r => c r.1)).sum +
        (if (findBucket ranges s).isSome then 1 else 0) := by
  unfold bucketUpd
  cases hfb : findBucket ranges s with
  | none => simp only [Option.isSome_none, Bool.false_eq_true, if_false, Nat.add_zero]
  | some label =>
    have hmem := findBucket_mem ranges s label hfb
    have hkb := keys_bump_sum label c (ranges.map Prod.fst) hnd hmem
    rw [List.map_map, List.map_map] at hkb
    simpa [Function.comp_def] using hkb

theorem distCounts_go (ranges : List (String × ℚ × ℚ))
    (hnd : (ranges.map Prod.fst).Nodup) (spreads : List ℚ) :
    ∀ c : String → Nat,
    (ranges.map (fun r => (spreads.foldl (bucketUpd ranges) c) r.1)).sum =
      (ranges.map (fun r => c r.1)).sum +
        spreads.countP (fun s => (findBucket ranges s).isSome) := by
  induction spreads with
  | nil => intro c; simp
  | cons s rest ih =>
    intro c
    simp only [List.foldl_cons, List.countP_cons]
    rw [ih (bucketUpd ranges c s), bucketUpd_sum ranges hnd c s]
    by_cases h : (findBucket ranges s).isSome <;> simp [h]
    omega

theorem distCounts_sum (ranges : List (String × ℚ × ℚ))
    (hnd : (ranges.map Prod.fst).Nodup) (spreads : List ℚ) :
    (ranges.map (fun r => distCounts ranges spreads r.1)).sum =
      spreads.countP (fun s => (findBucket ranges s).isSome) := by
  unfold distCounts
  rw [distCounts_go ranges hnd spreads (fun _ => 0)]
  simp

/-! ## Reject-reason keys of the defensive loop -/

theorem new_rejfold_keys (fs : List New.Fields) : ∀ m : List (String × Nat),
    "" ∉ m.map Prod.fst → "" ∉ (fs.foldl New.rejStep m).map Prod.fst := by
  induction fs with
  | nil => intro m hm; simpa using hm
  | cons f t ih =>
    intro m hm
    simp only [List.foldl_cons]
    apply ih
    unfold New.rejStep
    split
    · exact bumpReason_keys _ _ (by assumption) hm
    · exact hm

/-! ## Running-maximum fold lemmas -/

theorem except_pure_bind {ε α β : Type} (a : α) (f : α → Except ε β) :
    ((pure a : Except ε α) >>= f) = f a := rfl

theorem new_maxfold_keep (l : List (Row × New.Fields)) :
    ∀ p : Option Row × ℚ, (∀ rf ∈ l, rf.2.spread ≤ p.2) →
    l.foldl New.maxStep p = p := by
  induction l with
  | nil => intro p _; rfl
  | cons rf t ih =>
    intro p hp
    simp only [List.foldl_cons]
    have hstep : New.maxStep p rf = p := by
      unfold New.maxStep
      rw [if_neg (not_lt.mpr (hp rf (List.mem_cons_self rf t)))]
    rw [hstep]
    exact ih p (fun x hx => hp x (List.mem_cons_of_mem rf hx))

theorem new_maxfold_lt (l : List (Row × New.Fields)) :
    ∀ (p : Option Row × ℚ) (m : ℚ), p.2 < m →
    (∀ rf ∈ l, rf.2.spread < m) → (l.foldl New.maxStep p).2 < m := by
  induction l with
  | nil => intro p m hp _; exact hp
  | cons rf t ih =>
    intro p m hp hl
    simp only [List.foldl_cons]
    refine ih (New.maxStep p rf) m ?_ (fun x hx => hl x (List.mem_cons_of_mem rf hx))
    unfold New.maxStep
    split
    · exact hl rf (List.mem_cons_self rf t)
    · exact hp

theorem new_maxfold_inv (l : List (Row × New.Fields)) :
    ∀ p : Option Row × ℚ,
    (∀ rf ∈ l, New.parseFields rf.1 = some rf.2) →
    0 ≤ p.2 →
    (p.1 = none ∨ ∃ row f, p.1 = some row ∧ New.parseFields row = some f ∧
      0 < f.spread ∧ f.spread = p.2) →
    0 ≤ (l.foldl New.maxStep p).2 ∧
      ((l.foldl New.maxStep p).1 = none ∨
        ∃ row f, (l.foldl New.maxStep p).1 = some row ∧
          New.parseFields row = some f ∧ 0 < f.spread ∧
          f.spread = (l.foldl New.maxStep p).2) := by
  induction l with
  | nil => intro p _ h0 hinv; exact ⟨h0, hinv⟩
  | cons rf t ih =>
    intro p hl h0 hinv
    simp only [List.foldl_cons]
    by_cases hgt : rf.2.spread > p.2
    · have hstep : New.maxStep p rf = (some rf.1, rf.2.spread) := by
        unfold New.maxStep
        rw [if_pos hgt]
      rw [hstep]
      refine ih _ (fun x hx => hl x (List.mem_cons_of_mem rf hx))
        (le_of_lt (lt_of_le_of_lt h0 hgt)) ?_
      exact Or.inr ⟨rf.1, rf.2, rfl, hl rf (List.mem_cons_self rf t),
        lt_of_le_of_lt h0 hgt, rfl⟩
    · have hstep : New.maxStep p rf = p := by
        unfold New.maxStep
        rw [if_neg hgt]
      rw [hstep]
      exact ih p (fun x hx => hl x (List.mem_cons_of_mem rf hx)) h0 hinv

theorem old_maxfold_keep (l : List (Row × Old.Fields)) :
    ∀ p : Option Row × ℚ, (∀ rf ∈ l, rf.2.spread ≤ p.2) →
    l.foldl Old.maxStep p = p := by
  induction l with
  | nil => intro p _; rfl
  | cons rf t ih =>
    intro p hp
    simp only [List.foldl_cons]
    have hstep : Old.maxStep p rf = p := by
      unfold Old.maxStep
      rw [if_neg (not_lt.mpr (hp rf (List.mem_cons_self rf t)))]
    rw [hstep]
    exact ih p (fun x hx => hp x (List.mem_cons_of_mem rf hx))

theorem old_maxfold_lt (l : List (Row × Old.Fields)) :
    ∀ (p : Option Row × ℚ) (m : ℚ), p.2 < m →
    (∀ rf ∈ l, rf.2.spread < m) → (l.foldl Old.maxStep p).2 < m := by
  induction l with
  | nil => intro p m hp _; exact hp
  | cons rf t ih =>
    intro p m hp hl
    simp only [List.foldl_cons]
    refine ih (Old.maxStep p rf) m ?_ (fun x hx => hl x (List.mem_cons_of_mem rf hx))
    unfold Old.maxStep
    split
    · exact hl rf (List.mem_cons_self rf t)
    · exact hp

theorem old_maxfold_inv (l : List (Row × Old.Fields)) :
    ∀ p : Option Row × ℚ,
    (∀ rf ∈ l, Old.parseFields rf.1 = some rf.2) →
    0 ≤ p.2 →
    (p.1 = none ∨ ∃ row f, p.1 = some row ∧ Old.parseFields row = some f ∧
      0 < f.spread ∧ f.spread = p.2) →
    0 ≤ (l.foldl Old.maxStep p).2 ∧
      ((l.foldl Old.maxStep p).1 = none ∨
        ∃ row f, (l.foldl Old.maxStep p).1 = some row ∧
          Old.parseFields row = some f ∧ 0 < f.spread ∧
          f.spread = (l.foldl Old.maxStep p).2) := by
  induction l with
  | nil => intro p _ h0 hinv; exact ⟨h0, hinv⟩
  | cons rf t ih =>
    intro p hl h0 hinv
    simp only [List.foldl_cons]
    by_cases hgt : rf.2.spread > p.2
    · have hstep : Old.maxStep p rf = (some rf.1, rf.2.spread) := by
        unfold Old.maxStep
        rw [if_pos hgt]
      rw [hstep]
      refine ih _ (fun x hx => hl x (List.mem_cons_of_mem rf hx))
        (le_of_lt (lt_of_le_of_lt h0 hgt)) ?_
      exact Or.inr ⟨rf.1, rf.2, rfl, hl rf (List.mem_cons_self rf t),
        lt_of_le_of_lt h0 hgt, rfl⟩
    · have hstep : Old.maxStep p rf = p := by
        unfold Old.maxStep
        rw [if_neg hgt]
      rw [hstep]
      exact ih p (fun x hx => hl x (List.mem_cons_of_mem rf hx)) h0 hinv

theorem new_validRows_mem (rows : List Row) (rf : Row × New.Fields)
    (h : rf ∈ New.validRows rows) : New.parseFields rf.1 = some rf.2 := by
  unfold New.validRows at h
  obtain ⟨r, -, hr⟩ := List.mem_filterMap.mp h
  unfold New.rowPair? at hr
  split at hr
  · cases hr
  · cases hp : New.parseFields r with
    | none => rw [hp] at hr; cases hr
    | some f =>
      rw [hp] at hr
      simp only [Option.map_some'] at hr
      cases hr
      exact hp

theorem old_validRows_mem (rows : List Row) (rf : Row × Old.Fields)
    (h : rf ∈ Old.validRows rows) : Old.parseFields rf.1 = some rf.2 := by
  unfold Old.validRows at h
  obtain ⟨r, -, hr⟩ := List.mem_filterMap.mp h
  unfold Old.rowPair? at hr
  split at hr
  · cases hr
  · cases hp : Old.parseFields r with
    | none => rw [hp] at hr; cases hr
    | some f =>
      rw [hp] at hr
      simp only [Option.map_some'] at hr
      cases hr
      exact hp

theorem new_rowValue_eq (r : Row) :
    New.rowValue? r = (New.rowPair? r).map Prod.snd := by
  unfold New.rowValue? New.rowPair?
  split
  · rfl
  · cases hp : New.parseFields r <;> simp [hp]

theorem new_validFields_eq (rows : List Row) :
    New.validFields rows = (New.validRows rows).map Prod.snd := by
  unfold New.validFields New.validRows
  rw [List.map_filterMap]
  exact List.filterMap_congr (fun r _ => new_rowValue_eq r)

/-! ## Report-field extraction -/

theorem new_report_fields (st : New.State) (rep : New.Report)
    (h : New.buildReport st = .ok rep) :
    rep.hours = New.computeHours st.time_spreads ∧
    (st.max_spread_entry = none → rep.top_spread_case = none) := by
  unfold New.buildReport at h
  cases htop : New.topSection st with
  | error e =>
    rw [htop, except_error_bind] at h
    cases h
  | ok top =>
    rw [htop, except_ok_bind] at h
    cases hps : New.pairSection st with
    | error e =>
      rw [hps, except_error_bind] at h
      cases h
    | ok ps =>
      rw [hps, except_ok_bind] at h
      cases hrj : New.rejectSection st with
      | error e =>
        rw [hrj, except_error_bind] at h
        cases h
      | ok rj =>
        rw [hrj, except_ok_bind] at h
        cases hcp : New.conclSection st with
        | error e =>
          rw [hcp, except_error_bind] at h
          cases h
        | ok cp =>
          rw [hcp, except_ok_bind] at h
          cases h
          refine ⟨rfl, ?_⟩
          intro hent
          unfold New.topSection at htop
          rw [hent] at htop
          cases htop
          rfl

theorem old_report_top (st : Old.State) (rep : Old.Report)
    (h : Old.buildReport st = .ok rep) (hent : st.max_spread_entry = none) :
    rep.top_spread_case = none := by
  unfold Old.buildReport at h
  cases h1 : pyDiv st.spreads.sum (st.spreads.length : ℚ) with
  | error e => rw [h1, except_error_bind] at h; cases h
  | ok avg =>
    rw [h1, except_ok_bind] at h
    cases h2 : pyDiv st.eth_prices.sum (st.eth_prices.length : ℚ) with
    | error e => rw [h2, except_error_bind] at h; cases h
    | ok avge =>
      rw [h2, except_ok_bind] at h
      cases htop : Old.topSection st with
      | error e => rw [htop, except_error_bind] at h; cases h
      | ok top =>
        rw [htop, except_ok_bind] at h
        cases hps : Old.pairSection st with
        | error e => rw [hps, except_error_bind] at h; cases h
        | ok ps =>
          rw [hps, except_ok_bind] at h
          cases hrj : Old.rejectSection st with
          | error e => rw [hrj, except_error_bind] at h; cases h
          | ok rj =>
            rw [hrj, except_ok_bind] at h
            cases h10 : Old.top10Section st with
            | error e => rw [h10, except_error_bind] at h; cases h
            | ok t10 =>
              rw [h10, except_ok_bind] at h
              cases h
              unfold Old.topSection at htop
              rw [hent] at htop
              cases htop
              rfl

/-! ## Claims -/

/-- **C3** (confirmed): for every non-empty list of parsed spread values of
length `n`, the reported median equals the element at index `⌊n/2⌋` of the
list sorted ascending (the computation both scripts share), and consequently
`min_spread_val ≤ median_spread ≤ max_spread_val`; for even `n` this index
rule picks the upper-middle element, not the average of the two middles. -/
theorem claim3_median_rule (l : List ℚ) (h : l ≠ []) :
    median_spread l = (sortAsc l).getD (l.length / 2) 0 ∧
    pyMin l ≤ median_spread l ∧ median_spread l ≤ pyMax l := by
  refine ⟨?_, pyMin_le l _ (median_spread_mem l h),
    le_pyMax l _ (median_spread_mem l h)⟩
  unfold median_spread sortAsc
  simp only [List.length_insertionSort]

/-- Witness for C3 at the spec's even-length example `[0.1, 0.2, 0.3, 0.4]`. -/
theorem claim3_median_rule_witness :
    (([1/10, 2/10, 3/10, 4/10] : List ℚ) ≠ []) ∧
    (median_spread ([1/10, 2/10, 3/10, 4/10] : List ℚ) =
        (sortAsc [1/10, 2/10, 3/10, 4/10]).getD
          (([1/10, 2/10, 3/10, 4/10] : List ℚ).length / 2) 0 ∧
      pyMin [1/10, 2/10, 3/10, 4/10] ≤ median_spread [1/10, 2/10, 3/10, 4/10] ∧
      median_spread [1/10, 2/10, 3/10, 4/10] ≤ pyMax [1/10, 2/10, 3/10, 4/10]) :=
  ⟨by decide, claim3_median_rule _ (by decide)⟩

/-- **C6** (confirmed): in both scripts, the reject-reason frequency table
never contains the empty string as a key — only reasons that are non-empty
after trimming are counted, so rows with an empty reason contribute nothing
to the table. -/
theorem claim6_reject_keys :
    (∀ rows : List Row,
      "" ∉ (New.processRows rows).reject_reasons.map Prod.fst) ∧
    (∀ (rows : List Row) (st : Old.State), Old.processRows rows = .ok st →
      "" ∉ st.reject_reasons.map Prod.fst) := by
  constructor
  · intro rows
    unfold New.processRows
    rw [new_foldl_reject rows New.initState]
    exact new_rejfold_keys _ _ (by simp [New.initState])
  · intro rows st h
    exact old_foldlM_reject_keys rows Old.initState st h (by simp [Old.initState])

unseal Rat.add Rat.mul Rat.inv Rat.sub in
/-- Witness for C6 on rows with a non-empty and an absent reject reason. -/
theorem claim6_reject_keys_witness :
    "" ∉ (New.processRows [wRowA, cexRowC1]).reject_reasons.map Prod.fst ∧
    Old.processRows [wRowA] = .ok c6StateOld ∧
    "" ∉ c6StateOld.reject_reasons.map Prod.fst :=
  ⟨claim6_reject_keys.1 [wRowA, cexRowC1], by decide,
    claim6_reject_keys.2 [wRowA] c6StateOld (by decide)⟩

/-- **C8** (confirmed): in the strict script, an input containing a row of
length ≥ 29 whose spread, has-opportunity, or ETH-price field does not parse
as the required numeric type makes the run raise and terminate: the result is
an error, and no report value is ever produced. -/
theorem claim8_fail_fast (rows : List Row) (r : Row) (hr : r ∈ rows)
    (hlen : ¬ r.length < 29)
    (hbad : parseFloat? (getField r 3) = none ∨
      parseInt? (getField r 4) = none ∨
      parseFloat? (getField r 27) = none) :
    ∃ e, Old.runOld rows = Except.error e := by
  have hstep := old_step_error r hlen (old_parseFields_none r hbad)
  obtain ⟨e, he⟩ := old_foldlM_error rows r hr hstep Old.initState
  refine ⟨e, ?_⟩
  unfold Old.runOld Old.processRows
  rw [he, except_error_bind]

/-- Witness for C8: a row whose spread field is `"abc"` kills the run. -/
theorem claim8_fail_fast_witness :
    badC8Row ∈ ([badC8Row] : List Row) ∧
    (¬ (badC8Row : Row).length < 29) ∧
    parseFloat? (getField badC8Row 3) = none ∧
    (∃ e, Old.runOld [badC8Row] = Except.error e) :=
  ⟨List.mem_cons_self _ _, by decide, by decide,
    claim8_fail_fast [badC8Row] badC8Row (List.mem_cons_self _ _) (by decide)
      (Or.inl (by decide))⟩

/-- **C2** (code bug): the defensive script is supposed to complete and print
a full report on every input, but it does not: on an empty file
`next(reader)` raises `StopIteration`, and on a file with a header row but
zero counted data rows the no-reject-reasons branch divides
`total_no_reason / total_scans` with `total_scans = 0`, raising
`ZeroDivisionError` (line 164) mid-report. -/
theorem claim2_empty_input_bug :
    New.runNew [] = .error .stopIteration ∧
    New.runNew [hdrRow] = .error .zeroDivision := by
  constructor
  · rfl
  · decide

/-- **C1 counterexample**: a 29-field row whose spread field is `"abc"` is
skipped by the `except` clause but still counts toward `total_scans`
(the counter is incremented before the `try` block), so the claim that such
a row "does not count toward total_scans" is false. -/
theorem claim1_counterexample :
    (New.processRows [cexRowC1]).total_scans = 1 ∧
    (New.processRows [cexRowC1]).spreads = [] ∧
    (New.processRows [cexRowC1]).time_spreads = [] := by
  decide

/-- **C1 amended**: in the defensive script, a row of length ≥ 29 whose
field conversions fail contributes exactly 1 to `total_scans` but enters no
aggregate, and processing continues: the final aggregates over
`pre ++ [row] ++ post` equal those over `pre ++ post`, so subsequent valid
rows are still aggregated. -/
theorem claim1_amended (pre post : List Row) (r : Row)
    (hlen : ¬ r.length < 29) (hbad : New.parseFields r = none) :
    (New.processRows (pre ++ r :: post)).total_scans =
      (New.processRows (pre ++ post)).total_scans + 1 ∧
    (New.processRows (pre ++ r :: post)).spreads =
      (New.processRows (pre ++ post)).spreads ∧
    (New.processRows (pre ++ r :: post)).eth_prices =
      (New.processRows (pre ++ post)).eth_prices ∧
    (New.processRows (pre ++ r :: post)).gas_prices =
      (New.processRows (pre ++ post)).gas_prices ∧
    (New.processRows (pre ++ r :: post)).opportunities =
      (New.processRows (pre ++ post)).opportunities ∧
    (New.processRows (pre ++ r :: post)).reject_reasons =
      (New.processRows (pre ++ post)).reject_reasons ∧
    (New.processRows (pre ++ r :: post)).pair_spreads =
      (New.processRows (pre ++ post)).pair_spreads ∧
    (New.processRows (pre ++ r :: post)).time_spreads =
      (New.processRows (pre ++ post)).time_spreads ∧
    (New.processRows (pre ++ r :: post)).high_spread_cases =
      (New.processRows (pre ++ post)).high_spread_cases ∧
    (New.processRows (pre ++ r :: post)).max_spread_entry =
      (New.processRows (pre ++ post)).max_spread_entry ∧
    (New.processRows (pre ++ r :: post)).max_spread =
      (New.processRows (pre ++ post)).max_spread := by
  have hrv : New.rowValue? r = none := by
    unfold New.rowValue?
    rw [if_neg hlen, hbad]
  have hrp : New.rowPair? r = none := by
    unfold New.rowPair?
    rw [if_neg hlen, hbad]
    rfl
  have hvf : New.validFields (pre ++ r :: post) = New.validFields (pre ++ post) := by
    unfold New.validFields
    simp [List.filterMap_append, List.filterMap_cons, hrv]
  have hvr : New.validRows (pre ++ r :: post) = New.validRows (pre ++ post) := by
    unfold New.validRows
    simp [List.filterMap_append, List.filterMap_cons, hrp]
  have hpair : ((New.processRows (pre ++ r :: post)).max_spread_entry,
      (New.processRows (pre ++ r :: post)).max_spread) =
      ((New.processRows (pre ++ post)).max_spread_entry,
        (New.processRows (pre ++ post)).max_spread) := by
    unfold New.processRows
    rw [new_foldl_max (pre ++ r :: post) New.initState, hvr,
      ← new_foldl_max (pre ++ post) New.initState]
  refine ⟨?_, ?_, ?_, ?_, ?_, ?_, ?_, ?_, ?_,
    congrArg Prod.fst hpair, congrArg Prod.snd hpair⟩
  · unfold New.processRows
    rw [new_foldl_total (pre ++ r :: post) New.initState,
      new_foldl_total (pre ++ post) New.initState]
    simp [List.countP_append, List.countP_cons, hlen]
    rw [if_pos (not_lt.mp hlen)]
    omega
  · unfold New.processRows
    rw [new_foldl_spreads (pre ++ r :: post) New.initState,
      new_foldl_spreads (pre ++ post) New.initState, hvf]
  · unfold New.processRows
    rw [new_foldl_eth (pre ++ r :: post) New.initState,
      new_foldl_eth (pre ++ post) New.initState, hvf]
  · unfold New.processRows
    rw [new_foldl_gas (pre ++ r :: post) New.initState,
      new_foldl_gas (pre ++ post) New.initState, hvf]
  · unfold New.processRows
    rw [new_foldl_opps (pre ++ r :: post) New.initState,
      new_foldl_opps (pre ++ post) New.initState, hvf]
  · unfold New.processRows
    rw [new_foldl_reject (pre ++ r :: post) New.initState,
      new_foldl_reject (pre ++ post) New.initState, hvf]
  · unfold New.processRows
    rw [new_foldl_pairs (pre ++ r :: post) New.initState,
      new_foldl_pairs (pre ++ post) New.initState, hvf]
  · unfold New.processRows
    rw [new_foldl_time (pre ++ r :: post) New.initState,
      new_foldl_time (pre ++ post) New.initState, hvf]
  · unfold New.processRows
    rw [new_foldl_high (pre ++ r :: post) New.initState,
      new_foldl_high (pre ++ post) New.initState, hvf]

/-- **C5** (confirmed): in both scripts the histogram buckets are half-open
intervals `[low, high)` tried in fixed order with first match winning, so
every spread increments at most one bucket (the sum over buckets counts each
value once iff some bucket matches); a value below 0 (the first floor) or at
or above 999 (the last ceiling) lands in no bucket; and when every spread
matches some bucket, the bucket counts sum to the number of valid records. -/
theorem claim5_histogram (l lO : List ℚ) :
    (∀ s : ℚ, s < 0 →
      findBucket New.spread_ranges s = none ∧
        findBucket Old.spread_ranges s = none) ∧
    (∀ s : ℚ, 999 ≤ s →
      findBucket New.spread_ranges s = none ∧
        findBucket Old.spread_ranges s = none) ∧
    (New.spread_ranges.map (fun r => distCounts New.spread_ranges l r.1)).sum =
      l.countP (fun s => (findBucket New.spread_ranges s).isSome) ∧
    (Old.spread_ranges.map (fun r => distCounts Old.spread_ranges lO r.1)).sum =
      lO.countP (fun s => (findBucket Old.spread_ranges s).isSome) ∧
    ((∀ s ∈ l, (findBucket New.spread_ranges s).isSome) →
      (New.spread_ranges.map (fun r => distCounts New.spread_ranges l r.1)).sum =
        l.length) ∧
    ((∀ s ∈ lO, (findBucket Old.spread_ranges s).isSome) →
      (Old.spread_ranges.map (fun r => distCounts Old.spread_ranges lO r.1)).sum =
        lO.length) := by
  have hndN : (New.spread_ranges.map Prod.fst).Nodup := by decide
  have hndO : (Old.spread_ranges.map Prod.fst).Nodup := by decide
  refine ⟨?_, ?_, distCounts_sum _ hndN l, distCounts_sum _ hndO lO, ?_, ?_⟩
  · intro s hs
    constructor
    · unfold findBucket
      have hnone : New.spread_ranges.find?
          (fun r => decide (r.2.1 ≤ s ∧ s < r.2.2)) = none := by
        rw [List.find?_eq_none]
        intro r hr
        fin_cases hr <;>
          (simp only [decide_eq_true_eq, not_and, not_lt]; intro hle; linarith)
      rw [hnone]
      rfl
    · unfold findBucket
      have hnone : Old.spread_ranges.find?
          (fun r => decide (r.2.1 ≤ s ∧ s < r.2.2)) = none := by
        rw [List.find?_eq_none]
        intro r hr
        fin_cases hr <;>
          (simp only [decide_eq_true_eq, not_and, not_lt]; intro hle; linarith)
      rw [hnone]
      rfl
  · intro s hs
    constructor
    · unfold findBucket
      have hnone : New.spread_ranges.find?
          (fun r => decide (r.2.1 ≤ s ∧ s < r.2.2)) = none := by
        rw [List.find?_eq_none]
        intro r hr
        fin_cases hr <;>
          (simp only [decide_eq_true_eq, not_and, not_lt]; intro hle; linarith)
      rw [hnone]
      rfl
    · unfold findBucket
      have hnone : Old.spread_ranges.find?
          (fun r => decide (r.2.1 ≤ s ∧ s < r.2.2)) = none := by
        rw [List.find?_eq_none]
        intro r hr
        fin_cases hr <;>
          (simp only [decide_eq_true_eq, not_and, not_lt]; intro hle; linarith)
      rw [hnone]
      rfl
  · intro hall
    rw [distCounts_sum _ hndN l]
    exact List.countP_eq_length.mpr (fun s hs => hall s hs)
  · intro hall
    rw [distCounts_sum _ hndO lO]
    exact List.countP_eq_length.mpr (fun s hs => hall s hs)

unseal Rat.add Rat.mul Rat.inv Rat.sub in
/-- Witness for C5: the single spread 0.5 lands in exactly one bucket of each
script's histogram and the counts sum to 1. -/
theorem claim5_histogram_witness :
    (∀ s ∈ ([1/2] : List ℚ), (findBucket New.spread_ranges s).isSome) ∧
    (New.spread_ranges.map
        (fun r => distCounts New.spread_ranges [(1 : ℚ)/2] r.1)).sum =
      ([(1 : ℚ)/2]).length ∧
    (Old.spread_ranges.map
        (fun r => distCounts Old.spread_ranges [(1 : ℚ)/2] r.1)).sum =
      ([(1 : ℚ)/2]).length :=
  ⟨by decide, (claim5_histogram [1/2] [1/2]).2.2.2.2.1 (by decide),
    (claim5_histogram [1/2] [1/2]).2.2.2.2.2 (by decide)⟩

/-- **C7** (confirmed): in both scripts, the top-K list is the first K
elements (K = 20 in the defensive script, 10 in the strict one) of a list
that is a permutation of all records, is sorted by spread descending, and is
stable: any two records appearing in the input in a given order with equal
spreads appear in the sorted list in that same order. -/
theorem claim7_topk (ts : List New.TimeSpread) (tsO : List Old.TimeSpread) :
    (∃ L, New.sorted_time_spreads ts = L.take 20 ∧ L.Perm ts ∧
      L.Pairwise (fun a b => b.spread ≤ a.spread) ∧
      (∀ a b, List.Sublist [a, b] ts → a.spread = b.spread → List.Sublist [a, b] L)) ∧
    (∃ L, Old.sorted_time_spreads tsO = L.take 10 ∧ L.Perm tsO ∧
      L.Pairwise (fun a b => b.spread ≤ a.spread) ∧
      (∀ a b, List.Sublist [a, b] tsO → a.spread = b.spread → List.Sublist [a, b] L)) := by
  constructor
  · refine ⟨ts.insertionSort (fun a b => b.spread ≤ a.spread), rfl,
      List.perm_insertionSort _ ts, ?_, ?_⟩
    · haveI : IsTotal New.TimeSpread (fun a b => b.spread ≤ a.spread) :=
        ⟨fun a b => le_total b.spread a.spread⟩
      haveI : IsTrans New.TimeSpread (fun a b => b.spread ≤ a.spread) :=
        ⟨fun a b c hab hbc => le_trans hbc hab⟩
      exact List.sorted_insertionSort _ ts
    · intro a b hsub heq
      exact List.pair_sublist_insertionSort (le_of_eq heq.symm) hsub
  · refine ⟨tsO.insertionSort (fun a b => b.spread ≤ a.spread), rfl,
      List.perm_insertionSort _ tsO, ?_, ?_⟩
    · haveI : IsTotal Old.TimeSpread (fun a b => b.spread ≤ a.spread) :=
        ⟨fun a b => le_total b.spread a.spread⟩
      haveI : IsTrans Old.TimeSpread (fun a b => b.spread ≤ a.spread) :=
        ⟨fun a b c hab hbc => le_trans hbc hab⟩
      exact List.sorted_insertionSort _ tsO
    · intro a b hsub heq
      exact List.pair_sublist_insertionSort (le_of_eq heq.symm) hsub

/-- Witness for C7 on a concrete two-record tie. -/
theorem claim7_topk_witness :
    ∃ L, New.sorted_time_spreads [wTS1, wTS2] = L.take 20 ∧
      L.Perm [wTS1, wTS2] ∧
      L.Pairwise (fun a b => b.spread ≤ a.spread) ∧
      (∀ a b, List.Sublist [a, b] [wTS1, wTS2] → a.spread = b.spread → List.Sublist [a, b] L) :=
  (claim7_topk [wTS1, wTS2] []).1

theorem c4_step_new (s : New.State) (row : Row) (f : New.Fields)
    (hrow : New.rowPair? row = some (row, f)) :
    (New.step s row).max_spread_entry =
      if f.spread > s.max_spread then some row else s.max_spread_entry := by
  unfold New.rowPair? at hrow
  by_cases hlen : row.length < 29
  · rw [if_pos hlen] at hrow; cases hrow
  · rw [if_neg hlen] at hrow
    cases hp : New.parseFields row with
    | none => rw [hp] at hrow; cases hrow
    | some g =>
      rw [hp] at hrow
      simp only [Option.map_some'] at hrow
      injection hrow with h2
      have hgf : g = f := congrArg Prod.snd h2
      subst hgf
      unfold New.step
      rw [if_neg hlen, hp]

theorem c4_step_old (s : Old.State) (row : Row) (f : Old.Fields)
    (s' : Old.State) (hrow : Old.rowPair? row = some (row, f))
    (hst : Old.step s row = .ok s') :
    s'.max_spread_entry =
      if f.spread > s.max_spread then some row else s.max_spread_entry := by
  rcases old_step_ok_cases s row s' hst with ⟨hn, rfl⟩ | ⟨g, hg, hmax, -⟩
  · rw [hn] at hrow; cases hrow
  · rw [hg] at hrow
    injection hrow with h2
    have hgf : g = f := congrArg Prod.snd h2
    subst hgf
    have he := congrArg Prod.fst hmax
    unfold Old.maxStep at he
    by_cases hgt : g.spread > s.max_spread
    · rw [if_pos hgt]
      rw [if_pos hgt] at he
      exact he
    · rw [if_neg hgt]
      rw [if_neg hgt] at he
      exact he

theorem c4_first_new (pre post : List Row) (r : Row) (f : New.Fields)
    (m : ℚ) (hm : 0 < m) (hr : New.rowPair? r = some (r, f))
    (hf : f.spread = m)
    (hpre : ∀ rf ∈ New.validRows pre, rf.2.spread < m)
    (hpost : ∀ rf ∈ New.validRows post, rf.2.spread ≤ m) :
    (New.processRows (pre ++ r :: post)).max_spread_entry = some r ∧
    (New.processRows (pre ++ r :: post)).max_spread = m := by
  have hsplit : New.validRows (pre ++ r :: post) =
      New.validRows pre ++ (r, f) :: New.validRows post := by
    unfold New.validRows
    rw [List.filterMap_append, List.filterMap_cons, hr]
  have h := new_foldl_max (pre ++ r :: post) New.initState
  rw [hsplit] at h
  have hp1lt : ((New.validRows pre).foldl New.maxStep
      (New.initState.max_spread_entry, New.initState.max_spread)).2 < m := by
    apply new_maxfold_lt _ _ m _ hpre
    simpa [New.initState] using hm
  have hstep : New.maxStep ((New.validRows pre).foldl New.maxStep
      (New.initState.max_spread_entry, New.initState.max_spread)) (r, f) =
      (some r, m) := by
    unfold New.maxStep
    rw [if_pos (by simpa [hf] using hp1lt)]
    simp [hf]
  have hrhs : (New.validRows pre ++ (r, f) :: New.validRows post).foldl
      New.maxStep
      (New.initState.max_spread_entry, New.initState.max_spread) =
      (some r, m) := by
    rw [List.foldl_append, List.foldl_cons, hstep]
    exact new_maxfold_keep (New.validRows post) (some r, m)
      (fun rf hrf => hpost rf hrf)
  have hfin := h.trans hrhs
  unfold New.processRows
  exact ⟨congrArg Prod.fst hfin, congrArg Prod.snd hfin⟩

theorem c4_first_old (pre post : List Row) (r : Row) (f : Old.Fields)
    (m : ℚ) (st : Old.State) (hm : 0 < m)
    (hr : Old.rowPair? r = some (r, f)) (hf : f.spread = m)
    (hpre : ∀ rf ∈ Old.validRows pre, rf.2.spread < m)
    (hpost : ∀ rf ∈ Old.validRows post, rf.2.spread ≤ m)
    (hok : Old.processRows (pre ++ r :: post) = .ok st) :
    st.max_spread_entry = some r ∧ st.max_spread = m := by
  have hsplit : Old.validRows (pre ++ r :: post) =
      Old.validRows pre ++ (r, f) :: Old.validRows post := by
    unfold Old.validRows
    rw [List.filterMap_append, List.filterMap_cons, hr]
  have h := old_foldlM_max (pre ++ r :: post) Old.initState st hok
  rw [hsplit] at h
  have hp1lt : ((Old.validRows pre).foldl Old.maxStep
      (Old.initState.max_spread_entry, Old.initState.max_spread)).2 < m := by
    apply old_maxfold_lt _ _ m _ hpre
    simpa [Old.initState] using hm
  have hstep : Old.maxStep ((Old.validRows pre).foldl Old.maxStep
      (Old.initState.max_spread_entry, Old.initState.max_spread)) (r, f) =
      (some r, m) := by
    unfold Old.maxStep
    rw [if_pos (by simpa [hf] using hp1lt)]
    simp [hf]
  have hrhs : (Old.validRows pre ++ (r, f) :: Old.validRows post).foldl
      Old.maxStep
      (Old.initState.max_spread_entry, Old.initState.max_spread) =
      (some r, m) := by
    rw [List.foldl_append, List.foldl_cons, hstep]
    exact old_maxfold_keep (Old.validRows post) (some r, m)
      (fun rf hrf => hpost rf hrf)
  have hfin := h.trans hrhs
  exact ⟨congrArg Prod.fst hfin, congrArg Prod.snd hfin⟩

unseal Rat.add Rat.mul Rat.inv Rat.sub in
/-- **C4 counterexample**: two records both carrying the identical maximum
spread 0 — the claim says the first encountered is retained as
`max_spread_entry`, but because `max_spread` starts at 0 and replacement
requires a strictly greater spread, neither row is ever stored: the entry
stays `None` in both scripts. -/
theorem claim4_counterexample :
    (New.processRows [zRow1, zRow2]).max_spread_entry = none ∧
    (New.processRows [zRow1, zRow2]).max_spread_entry ≠ some zRow1 ∧
    Old.processRows [zRow1, zRow2] = .ok zStateOld ∧
    zStateOld.max_spread_entry = none := by
  refine ⟨by decide, by decide, by decide, by decide⟩

/-- **C4 amended**: in both scripts the running maximum uses a strict
greater-than comparison — a parsed record replaces `max_spread_entry` exactly
when its spread strictly exceeds the running maximum — so whenever the
maximum spread `m` over the input is positive, the first record attaining
`m` is retained as `max_spread_entry` even when later records tie with it.
(The positivity condition is forced: with `m = 0`, no record is ever stored,
as the counterexample shows.) -/
theorem claim4_amended :
    (∀ (s : New.State) (row : Row) (f : New.Fields),
      New.rowPair? row = some (row, f) →
      (New.step s row).max_spread_entry =
        if f.spread > s.max_spread then some row else s.max_spread_entry) ∧
    (∀ (s : Old.State) (row : Row) (f : Old.Fields) (s' : Old.State),
      Old.rowPair? row = some (row, f) → Old.step s row = .ok s' →
      s'.max_spread_entry =
        if f.spread > s.max_spread then some row else s.max_spread_entry) ∧
    (∀ (pre post : List Row) (r : Row) (f : New.Fields) (m : ℚ),
      0 < m → New.rowPair? r = some (r, f) → f.spread = m →
      (∀ rf ∈ New.validRows pre, rf.2.spread < m) →
      (∀ rf ∈ New.validRows post, rf.2.spread ≤ m) →
      (New.processRows (pre ++ r :: post)).max_spread_entry = some r ∧
      (New.processRows (pre ++ r :: post)).max_spread = m) ∧
    (∀ (pre post : List Row) (r : Row) (f : Old.Fields) (m : ℚ)
      (st : Old.State),
      0 < m → Old.rowPair? r = some (r, f) → f.spread = m →
      (∀ rf ∈ Old.validRows pre, rf.2.spread < m) →
      (∀ rf ∈ Old.validRows post, rf.2.spread ≤ m) →
      Old.processRows (pre ++ r :: post) = .ok st →
      st.max_spread_entry = some r ∧ st.max_spread = m) :=
  ⟨c4_step_new, c4_step_old,
    fun pre post r f m hm hr hf hpre hpost =>
      c4_first_new pre post r f m hm hr hf hpre hpost,
    fun pre post r f m st hm hr hf hpre hpost hok =>
      c4_first_old pre post r f m st hm hr hf hpre hpost hok⟩

unseal Rat.add Rat.mul Rat.inv Rat.sub in
/-- Witness for C4: spread 0.5 first reached by `wRowB` and tied by `wRowC`;
the first of the two is retained in both scripts. -/
theorem claim4_amended_witness :
    (New.processRows [wRowA, wRowB, wRowC]).max_spread_entry = some wRowB ∧
    (New.processRows [wRowA, wRowB, wRowC]).max_spread = 1/2 ∧
    Old.processRows [wRowA, wRowB, wRowC] = .ok c4StateOld ∧
    c4StateOld.max_spread_entry = some wRowB :=
  ⟨(claim4_amended.2.2.1 [wRowA] [wRowC] wRowB wRowBFields (1/2) (by decide)
      (by decide) (by decide) (by decide) (by decide)).1,
    (claim4_amended.2.2.1 [wRowA] [wRowC] wRowB wRowBFields (1/2) (by decide)
      (by decide) (by decide) (by decide) (by decide)).2,
    by decide,
    (claim4_amended.2.2.2 [wRowA] [wRowC] wRowB wRowBFieldsOld (1/2)
      c4StateOld (by decide) (by decide) (by decide) (by decide) (by decide)
      (by decide)).1⟩

theorem c10_inv_new (rows : List Row) :
    (New.processRows rows).max_spread_entry = none ∨
    ∃ row f, (New.processRows rows).max_spread_entry = some row ∧
      New.parseFields row = some f ∧ 0 < f.spread := by
  have h := new_foldl_max rows New.initState
  have hinv := new_maxfold_inv (New.validRows rows)
    (New.initState.max_spread_entry, New.initState.max_spread)
    (fun rf hrf => new_validRows_mem rows rf hrf)
    (by simp [New.initState]) (Or.inl rfl)
  have hentry : (New.processRows rows).max_spread_entry =
      ((New.validRows rows).foldl New.maxStep
        (New.initState.max_spread_entry, New.initState.max_spread)).1 :=
    congrArg Prod.fst h
  rw [hentry]
  rcases hinv.2 with hnone | ⟨row, f, hsome, hp, hpos, -⟩
  · exact Or.inl hnone
  · exact Or.inr ⟨row, f, hsome, hp, hpos⟩

theorem c10_inv_old (rows : List Row) (st : Old.State)
    (hok : Old.processRows rows = .ok st) :
    st.max_spread_entry = none ∨
    ∃ row f, st.max_spread_entry = some row ∧ Old.parseFields row = some f ∧
      0 < f.spread := by
  have h := old_foldlM_max rows Old.initState st hok
  have hinv := old_maxfold_inv (Old.validRows rows)
    (Old.initState.max_spread_entry, Old.initState.max_spread)
    (fun rf hrf => old_validRows_mem rows rf hrf)
    (by simp [Old.initState]) (Or.inl rfl)
  have hentry : st.max_spread_entry =
      ((Old.validRows rows).foldl Old.maxStep
        (Old.initState.max_spread_entry, Old.initState.max_spread)).1 :=
    congrArg Prod.fst h
  rw [hentry]
  rcases hinv.2 with hnone | ⟨row, f, hsome, hp, hpos, -⟩
  · exact Or.inl hnone
  · exact Or.inr ⟨row, f, hsome, hp, hpos⟩

theorem c10_none_new (rows : List Row)
    (hle : ∀ rf ∈ New.validRows rows, rf.2.spread ≤ 0) :
    (New.processRows rows).max_spread_entry = none := by
  have h := new_foldl_max rows New.initState
  rw [new_maxfold_keep (New.validRows rows) _
    (fun rf hrf => by simpa [New.initState] using hle rf hrf)] at h
  have hentry : (New.processRows rows).max_spread_entry =
      (New.initState.max_spread_entry, New.initState.max_spread).1 :=
    congrArg Prod.fst h
  rw [hentry]
  rfl

theorem c10_none_old (rows : List Row) (st : Old.State)
    (hok : Old.processRows rows = .ok st)
    (hle : ∀ rf ∈ Old.validRows rows, rf.2.spread ≤ 0) :
    st.max_spread_entry = none := by
  have h := old_foldlM_max rows Old.initState st hok
  rw [old_maxfold_keep (Old.validRows rows) _
    (fun rf hrf => by simpa [Old.initState] using hle rf hrf)] at h
  have hentry : st.max_spread_entry =
      (Old.initState.max_spread_entry, Old.initState.max_spread).1 :=
    congrArg Prod.fst h
  rw [hentry]
  rfl

/-- **C10** (confirmed): because `max_spread` starts at 0 and replacement
requires a strictly greater spread, the invariant holds in both scripts that
`max_spread_entry` is either `None` or a stored row whose parsed spread is
strictly positive; in particular, when every aggregated row has spread ≤ 0,
the entry stays `None` after the pass, and the top-spread-case section body
of the report is not printed (its value is `None`) even when records exist. -/
theorem claim10_max_entry_invariant :
    (∀ rows : List Row,
      (New.processRows rows).max_spread_entry = none ∨
      ∃ row f, (New.processRows rows).max_spread_entry = some row ∧
        New.parseFields row = some f ∧ 0 < f.spread) ∧
    (∀ (rows : List Row) (st : Old.State), Old.processRows rows = .ok st →
      st.max_spread_entry = none ∨
      ∃ row f, st.max_spread_entry = some row ∧ Old.parseFields row = some f ∧
        0 < f.spread) ∧
    (∀ rows : List Row, (∀ rf ∈ New.validRows rows, rf.2.spread ≤ 0) →
      (New.processRows rows).max_spread_entry = none) ∧
    (∀ (rows : List Row) (st : Old.State), Old.processRows rows = .ok st →
      (∀ rf ∈ Old.validRows rows, rf.2.spread ≤ 0) →
      st.max_spread_entry = none) ∧
    (∀ (hd : Row) (data : List Row) (rep : New.Report),
      New.runNew (hd :: data) = .ok rep →
      (∀ rf ∈ New.validRows data, rf.2.spread ≤ 0) →
      rep.top_spread_case = none) ∧
    (∀ (rows : List Row) (rep : Old.Report), Old.runOld rows = .ok rep →
      (∀ rf ∈ Old.validRows rows, rf.2.spread ≤ 0) →
      rep.top_spread_case = none) := by
  refine ⟨c10_inv_new, c10_inv_old, c10_none_new, c10_none_old, ?_, ?_⟩
  · intro hd data rep hrun hle
    have hb : New.buildReport (New.processRows data) = .ok rep := hrun
    exact (new_report_fields _ rep hb).2 (c10_none_new data hle)
  · intro rows rep hrun hle
    unfold Old.runOld at hrun
    cases hok : Old.processRows rows with
    | error e => rw [hok, except_error_bind] at hrun; cases hrun
    | ok st =>
      rw [hok, except_ok_bind] at hrun
      exact old_report_top st rep hrun (c10_none_old rows st hok hle)

unseal Rat.add Rat.mul Rat.inv Rat.sub in
/-- Witness for C10: a single record with spread exactly 0 — both runs
succeed, records exist, yet the top-spread-case section is empty. -/
theorem claim10_max_entry_invariant_witness :
    (∀ rf ∈ New.validRows [zRow1], rf.2.spread ≤ 0) ∧
    (New.processRows [zRow1]).max_spread_entry = none ∧
    New.runNew [hdrRow, zRow1] = .ok c10RepNew ∧
    c10RepNew.top_spread_case = none ∧
    Old.runOld [zRow1] = .ok c10RepOld ∧
    c10RepOld.top_spread_case = none :=
  ⟨by decide, claim10_max_entry_invariant.2.2.1 [zRow1] (by decide), by decide,
    claim10_max_entry_invariant.2.2.2.2.1 hdrRow [zRow1] c10RepNew (by decide)
      (by decide),
    by decide,
    claim10_max_entry_invariant.2.2.2.2.2 [zRow1] c10RepOld (by decide)
      (by decide)⟩

theorem c9_hours_fail (t : New.TimeSpread) (rest : List New.TimeSpread)
    (h : fromisoformat? (replaceZ t.timestamp) = none ∨
      fromisoformat? (replaceZ (((t :: rest).getLastD t).timestamp)) = none) :
    New.computeHours (t :: rest) = 0 := by
  rw [List.getLastD_eq_getLast?] at h
  unfold New.computeHours
  cases h1 : fromisoformat? (replaceZ t.timestamp) with
  | none =>
    cases h2 : fromisoformat?
        (replaceZ (((t :: rest).getLast?.getD t).timestamp)) <;>
      simp [h1, h2]
  | some a =>
    cases h2 : fromisoformat?
        (replaceZ (((t :: rest).getLast?.getD t).timestamp)) with
    | none => simp [h1, h2]
    | some b =>
      rcases h with h | h
      · rw [h1] at h; cases h
      · rw [h2] at h; cases h

theorem c9_hours_ok (t : New.TimeSpread) (rest : List New.TimeSpread)
    (a b : ℚ × Bool)
    (h1 : fromisoformat? (replaceZ t.timestamp) = some a)
    (h2 : fromisoformat? (replaceZ (((t :: rest).getLastD t).timestamp)) = some b)
    (hw : a.2 = b.2) :
    New.computeHours (t :: rest) = (b.1 - a.1) / 3600 := by
  rw [List.getLastD_eq_getLast?] at h2
  unfold New.computeHours
  simp [h1, h2, hw]

unseal Rat.add Rat.mul Rat.inv Rat.sub in
/-- **C9 counterexample**: one record whose timestamp does not parse — the
claim says the duration is reported as 0 and the rest of the report is still
produced, but with an empty ETH-price field on the max-spread row the
report phase itself raises `ValueError` at `float(max_spread_entry[27])`
(line 144), so the run fails and no report is printed. -/
theorem claim9_counterexample :
    (New.processRows [c9BadRow]).time_spreads.map (fun t => t.timestamp) =
      ["garbage"] ∧
    fromisoformat? (replaceZ "garbage") = none ∧
    New.runNew [hdrRow, c9BadRow] = .error .valueError := by
  refine ⟨by decide, by decide, by decide⟩

/-- **C9 amended**: when at least one record exists, the duration is
computed by parsing the first and last records' timestamps as ISO-8601
instants after replacing `Z` with `+00:00` and dividing the difference in
seconds by 3600; if either timestamp fails to parse the duration is 0, and
whenever the report phase itself succeeds (it can fail for reasons unrelated
to timestamps, as the counterexample shows) the report carries exactly this
duration value. -/
theorem claim9_amended :
    (∀ (t : New.TimeSpread) (rest : List New.TimeSpread),
      (fromisoformat? (replaceZ t.timestamp) = none ∨
        fromisoformat? (replaceZ (((t :: rest).getLastD t).timestamp)) = none) →
      New.computeHours (t :: rest) = 0) ∧
    (∀ (t : New.TimeSpread) (rest : List New.TimeSpread) (a b : ℚ × Bool),
      fromisoformat? (replaceZ t.timestamp) = some a →
      fromisoformat? (replaceZ (((t :: rest).getLastD t).timestamp)) = some b →
      a.2 = b.2 →
      New.computeHours (t :: rest) = (b.1 - a.1) / 3600) ∧
    (∀ (hd : Row) (data : List Row) (rep : New.Report),
      New.runNew (hd :: data) = .ok rep →
      rep.hours = New.computeHours (New.processRows data).time_spreads) :=
  ⟨c9_hours_fail, c9_hours_ok,
    fun _hd data rep hrun => (new_report_fields (New.processRows data) rep hrun).1⟩

unseal Rat.add Rat.mul Rat.inv Rat.sub in
/-- Witness for C9: with a garbage timestamp but otherwise benign fields the
run succeeds and reports duration 0. -/
theorem claim9_amended_witness :
    New.runNew [hdrRow, c9GoodRow] = .ok c9Rep ∧
    c9Rep.hours = New.computeHours (New.processRows [c9GoodRow]).time_spreads ∧
    New.computeHours (New.processRows [c9GoodRow]).time_spreads = 0 :=
  ⟨by decide, claim9_amended.2.2 hdrRow [c9GoodRow] c9Rep (by decide), by decide⟩

/-- Witness for C1: the malformed row between two valid rows adds exactly one
to `total_scans` and nothing to the spread list. -/
theorem claim1_amended_witness :
    (¬ (cexRowC1 : Row).length < 29) ∧ New.parseFields cexRowC1 = none ∧
    (New.processRows ([wRowA] ++ cexRowC1 :: [wRowB])).total_scans =
      (New.processRows ([wRowA] ++ [wRowB])).total_scans + 1 ∧
    (New.processRows ([wRowA] ++ cexRowC1 :: [wRowB])).spreads =
      (New.processRows ([wRowA] ++ [wRowB])).spreads :=
  ⟨by decide, by decide,
    (claim1_amended [wRowA] [wRowB] cexRowC1 (by decide) (by decide)).1,
    (claim1_amended [wRowA] [wRowB] cexRowC1 (by decide) (by decide)).2.1⟩

end MEV
